import Mathlib

/-!
Verification of the layer-command and modal-type-tool subsystem of the
spaces-design client (js/models/menuitem.js and js/actions/tool/type.js).

The JavaScript sources are shallowly embedded: every command is modelled as a
pure function from its inputs (the immutable document model, the arguments,
and the host responses it awaits) to the host requests it issues and the
local state-update payloads it dispatches.  JavaScript objects are modelled
as association lists in insertion order, and JavaScript truthiness of the
optional values involved is made explicit.
-/

/-! ## JavaScript value helpers -/

/-- Truthiness of an optional boolean argument (an omitted argument is
`undefined`, which is falsy; `false` is falsy; `true` is truthy). -/
def jsTruthy : Option Bool → Bool
  | none => false
  | some b => b

/-- Truthiness of an optional string (an absent property is `undefined` and
falsy; the empty string is falsy; every other string is truthy). -/
def jsTruthyStr : Option String → Bool
  | none => false
  | some s => s ≠ ""

/-- A JavaScript object, modelled as an association list of properties in
insertion order. -/
abbrev JsObj (α : Type) := List (String × α)

/-- Property assignment `obj[k] = v` on a JavaScript object: overwrite the
value in place when the key is present, append the property otherwise. -/
def jsSetKey {α : Type} (obj : JsObj α) (k : String) (v : α) : JsObj α :=
  if (obj.lookup k).isSome then
    obj.map (fun kv => if kv.1 = k then (k, v) else kv)
  else
    obj ++ [(k, v)]

/-- Lodash `_.assign(dest, src)`: copy every property of `src` into `dest`
in order, overwriting properties that already exist. -/
def jsAssign {α : Type} (dest src : JsObj α) : JsObj α :=
  src.foldl (fun d kv => jsSetKey d kv.1 kv.2) dest

/-- Mutation of the last element of a list, as in
`results[results.length - 1][property] = value`.  The reduce that uses this
always pushes an object before writing, so the empty case never arises in an
actual run. -/
def updateLast {α : Type} (f : α → α) : List α → List α
  | [] => []
  | [a] => [f a]
  | a :: b :: rest => a :: updateLast f (b :: rest)

/-! ## Document and layer model

The immutable document model consumed by the layer commands
(js/models/document.js and js/models/layerstructure.js provide it; the
commands only read the queries embedded below). -/

/-- Bounds of a layer; the commands only inspect the derived area. -/
structure Bounds where
  area : Nat
deriving DecidableEq

/-- A layer of the document model, restricted to the attributes the
embedded commands read. -/
structure Layer where
  id : Nat
  isBackground : Bool
  bounds : Option Bounds
  selected : Bool
deriving DecidableEq

/-- The layer collection of a document.  `all` is the flat ordered list of
layer models.  `maxDescendantDepth` is modelled from the spec: the
LayerStructure query of that name (js/models/layerstructure.js, which is not
among the sources here) returns, for a layer id, the maximum resulting
nesting depth across the layer's subtree; the grouping command consumes it
as an oracle. -/
structure LayerStructure where
  all : List Layer
  hasArtboard : Bool
  maxDescendantDepth : Nat → Nat

/-- Look a layer up by its stable id (`document.layers.byID(id)`). -/
def LayerStructure.byID (ls : LayerStructure) (layerID : Nat) : Option Layer :=
  ls.all.find? (fun l => l.id == layerID)

/-- The currently selected layers (`document.layers.selected`), derived from
the per-layer selection flag. -/
def LayerStructure.selectedLayers (ls : LayerStructure) : List Layer :=
  ls.all.filter (fun l => l.selected)

/-- A document model, restricted to the fields the embedded commands read. -/
structure Document where
  id : Nat
  unsupported : Bool
  hasBackgroundLayer : Bool
  layers : LayerStructure

/-! ## addLayers (js/models/menuitem.js, addLayersCommand, lines 564-607) -/

/-- The `layerSpec` argument of `addLayersCommand`, which accepts a single
layer id or an array of layer ids. -/
inductive LayerSpecArg where
  | num (n : Nat)
  | list (l : List Nat)

/-- Normalization at the top of `addLayersCommand`:
`if (typeof layerSpec === "number") { layerSpec = [layerSpec]; }`. -/
def LayerSpecArg.toList : LayerSpecArg → List Nat
  | .num n => [n]
  | .list l => l

/-- The replacement flag computed by `addLayersCommand` (lines 573-585).
When the `replace` argument is falsy, the default replacement logic runs:
replace exactly when a single layer is being added and the document holds
only the minimal layer set (three layers with an artboard, one otherwise),
and the candidate layer (`byID(2)` with an artboard, the first layer
otherwise) passes
`first && !first.isBackground && first.bounds && !first.bounds.area &&
 (document.layers.hasArtboard && first.selected)`. -/
def computeReplace (document : Document) (layerSpec : List Nat)
    (replaceArg : Option Bool) : Bool :=
  if jsTruthy replaceArg then
    true
  else
    let sizeOk :=
      layerSpec.length == 1 &&
        (if document.layers.hasArtboard then document.layers.all.length == 3
         else document.layers.all.length == 1)
    if sizeOk then
      let first :=
        if document.layers.hasArtboard then document.layers.byID 2
        else document.layers.all.head?
      match first with
      | none => false
      | some f =>
        !f.isBackground &&
          (match f.bounds with
           | none => false
           | some b => (b.area == 0) && (document.layers.hasArtboard && f.selected))
    else
      false

/-- The ADD_LAYERS payload dispatched by `addLayersCommand` once the batched
layer-descriptor fetch resolves. -/
structure AddLayersPayload (α : Type) where
  documentID : Nat
  layerIDs : List Nat
  descriptors : List (JsObj α)
  selected : Bool
  replace : Bool
deriving DecidableEq

/-- The ADD_LAYERS payload `addLayersCommand` dispatches, as a function of
the document, the arguments and the host's descriptor response
(`descriptors` stands for the resolved `_getLayersByRef` result). -/
def addLayersCommand {α : Type} (document : Document) (layerSpec : LayerSpecArg)
    (selectedArg replaceArg : Option Bool) (descriptors : List (JsObj α)) :
    AddLayersPayload α :=
  let spec := layerSpec.toList
  let selected := match selectedArg with
    | none => true
    | some b => b
  { documentID := document.id
    layerIDs := spec
    descriptors := descriptors
    selected := selected
    replace := computeReplace document spec replaceArg }

/-- A document whose single layer is a background layer (a flat document). -/
def bgDoc : Document :=
  { id := 3
    unsupported := false
    hasBackgroundLayer := true
    layers :=
      { all := [{ id := 1, isBackground := true, bounds := none, selected := false }]
        hasArtboard := false
        maxDescendantDepth := fun _ => 0 } }

/-- A document with no layers at all. -/
def noLayersDoc : Document :=
  { id := 4
    unsupported := false
    hasBackgroundLayer := false
    layers := { all := [], hasArtboard := false, maxDescendantDepth := fun _ => 0 } }

/-- An unsupported document. -/
def unsupportedDoc : Document :=
  { id := 5
    unsupported := true
    hasBackgroundLayer := false
    layers := { all := [], hasArtboard := false, maxDescendantDepth := fun _ => 0 } }

/-- A document whose selected layer sits at nesting depth 10, beyond the
grouping ceiling. -/
def deepDoc : Document :=
  { id := 2
    unsupported := false
    hasBackgroundLayer := false
    layers :=
      { all := [{ id := 7, isBackground := false, bounds := none, selected := true }]
        hasArtboard := false
        maxDescendantDepth := fun _ => 10 } }

/-- The document of the spec scenario for the replacement heuristic: no
artboard and exactly one zero-area, non-background, unselected layer. -/
def emptyCanvasDoc : Document :=
  { id := 1
    unsupported := false
    hasBackgroundLayer := false
    layers :=
      { all := [{ id := 5, isBackground := false, bounds := some { area := 0 },
                  selected := false }]
        hasArtboard := false
        maxDescendantDepth := fun _ => 0 } }

/-! ## resetLayersByIndex (js/models/menuitem.js, resetLayersByIndexCommand,
lines 673-695, and the host index convention of _getLayerIDsForDocument,
lines 1122-1133) -/

/-- The `layerIndexes` argument of `resetLayersByIndexCommand`, a single
index or an iterable of indexes. -/
inductive IndexSpecArg where
  | single (i : Int)
  | many (l : List Int)

/-- Normalization at the top of `resetLayersByIndexCommand`:
a non-iterable argument is wrapped with `Immutable.List.of`. -/
def IndexSpecArg.toList : IndexSpecArg → List Int
  | .single i => [i]
  | .many l => l

/-- The per-document layer references built by `resetLayersByIndexCommand`
(lines 676-684): for every input index, a pair of the document-id reference
and the index-addressed layer reference, where the index is adjusted by
`document.hasBackgroundLayer ? (idx - 1) : idx`. -/
def resetLayersByIndexRefs (document : Document) (layerIndexes : IndexSpecArg) :
    List (Nat × Int) :=
  layerIndexes.toList.map (fun idx =>
    (document.id, if document.hasBackgroundLayer then idx - 1 else idx))

/-- Lodash `_.range(start, stop, -1)`: the descending integers from `start`
inclusive down to `stop` exclusive. -/
def lodashRangeDown (start stop : Int) : List Int :=
  if start ≤ stop then []
  else start :: lodashRangeDown (start - 1) stop
termination_by (start - stop).toNat
decreasing_by
  simp only [not_le] at *
  omega

/-- The host layer indexes queried by `_getLayerIDsForDocument`
(lines 1122-1133): `_.range(layerCount, startIndex - 1, -1)` where
`startIndex` is `0` when the host document has a background layer and `1`
otherwise. -/
def getLayerIDsHostIndices (numberOfLayers : Nat) (hasBackgroundLayer : Bool) :
    List Int :=
  let startIndex : Int := if hasBackgroundLayer then 0 else 1
  lodashRangeDown (numberOfLayers : Int) (startIndex - 1)

/-- Modelled from the spec: the host-to-model direction of the index
translation, the inverse adjustment of the one `resetLayersByIndexCommand`
applies.  No such conversion function appears in the sources; it is stated
here only to express the round-trip property of the spec. -/
def hostIndexToModel (document : Document) (hostIdx : Int) : Int :=
  if document.hasBackgroundLayer then hostIdx + 1 else hostIdx

/-! ## groupSelected (js/models/menuitem.js, groupSelectedLayersCommand,
lines 918-947) -/

/-- The Photoshop nesting-depth ceiling guarded against before grouping
(line 436). -/
def PS_MAX_NEST_DEPTH : Nat := 9

/-- The host response of the `groupSelected` play object. -/
structure GroupResult where
  layerSectionStart : Nat
  layerSectionEnd : Nat
  name : String
deriving DecidableEq

/-- The GROUP_SELECTED payload dispatched on success. -/
structure GroupSelectedPayload where
  documentID : Nat
  groupID : Nat
  groupEndID : Nat
  groupname : String
deriving DecidableEq

/-- The observable effects of one run of a layer command: the host requests
it issues and the state-update events it dispatches. -/
structure GroupCmdResult where
  hostRequests : List String
  dispatches : List GroupSelectedPayload
deriving DecidableEq

/-- Embeds `groupSelectedLayersCommand`: resolve as a no-op (no host
request, no dispatch) when the selection is empty or when some selected
layer's `maxDescendantDepth` exceeds `PS_MAX_NEST_DEPTH`; otherwise play
`groupSelected` and dispatch the GROUP_SELECTED payload built from the host
response. -/
def groupSelectedLayersCommand (document : Document) (groupResult : GroupResult) :
    GroupCmdResult :=
  let selectedLayers := document.layers.selectedLayers
  if selectedLayers.length == 0 then
    { hostRequests := [], dispatches := [] }
  else
    let nestingLimitExceeded := selectedLayers.any (fun layer =>
      document.layers.maxDescendantDepth layer.id > PS_MAX_NEST_DEPTH)
    if nestingLimitExceeded then
      { hostRequests := [], dispatches := [] }
    else
      { hostRequests := ["playObject:groupSelected"]
        dispatches := [{ documentID := document.id
                         groupID := groupResult.layerSectionStart
                         groupEndID := groupResult.layerSectionEnd
                         groupname := groupResult.name }] }

/-! ## selectAll and deselectAll (js/models/menuitem.js,
deselectAllLayersCommand lines 832-853, selectAllLayersCommand
lines 861-872) -/

/-- The observable effects of one run of a selection command. -/
structure LayersCmdResult where
  hostRequests : List String
  dispatches : List String
deriving DecidableEq

/-- The default-document resolution shared by both commands:
`if (document === undefined) document = getCurrentDocument()`. -/
def resolveDocArg (docArg currentDoc : Option Document) : Option Document :=
  match docArg with
  | none => currentDoc
  | some d => some d

/-- Embeds `deselectAllLayersCommand`: resolve as a no-op when no document
resolves, the document is unsupported, or the document is flat (a single
layer which is the background layer); otherwise play `deselectAll` and
dispatch SELECT_LAYERS_BY_ID with an empty selection.  The
`first().isBackground` access is only reached when the size is one, so the
empty-list arm of the match is unreachable. -/
def deselectAllLayersCommand (docArg currentDoc : Option Document) :
    LayersCmdResult :=
  match resolveDocArg docArg currentDoc with
  | none => { hostRequests := [], dispatches := [] }
  | some document =>
    if document.unsupported ||
        (document.layers.all.length == 1 &&
          (match document.layers.all.head? with
           | some f => f.isBackground
           | none => false)) then
      { hostRequests := [], dispatches := [] }
    else
      { hostRequests := ["playObject:deselectAll"]
        dispatches := ["SELECT_LAYERS_BY_ID"] }

/-- Embeds `selectAllLayersCommand`: resolve as a no-op when no document
resolves, the document is unsupported, or it has no layers; otherwise
transfer to the select command on all layers, which dispatches
SELECT_LAYERS_BY_ID optimistically and plays the host select request. -/
def selectAllLayersCommand (docArg currentDoc : Option Document) :
    LayersCmdResult :=
  match resolveDocArg docArg currentDoc with
  | none => { hostRequests := [], dispatches := [] }
  | some document =>
    if document.unsupported || document.layers.all.isEmpty then
      { hostRequests := [], dispatches := [] }
    else
      { hostRequests := ["playObject:select"]
        dispatches := ["SELECT_LAYERS_BY_ID"] }

/-! ## Modal type-tool session (js/actions/tool/type.js) -/

/-- The outcome of `handleDeletedLayer` (lines 263-284): a thrown error when
no document is active, a transfer to `documents.updateDocument` (full
resync), or a transfer to `layers.removeLayers` for the one layer. -/
inductive DeletedLayerAction where
  | errorNoDocument
  | updateDocument
  | removeLayer (layerID : Nat)
deriving DecidableEq

/-- Embeds `handleDeletedLayer`: with no active document, throw; when the
prior add replaced layers, transfer a full `updateDocument`; otherwise
remove just the layer named by the event, falling back to a full
`updateDocument` when that layer is not in the model. -/
def handleDeletedLayer (currentDocument : Option Document) (eventLayerID : Nat)
    (layersReplaced : Bool) : DeletedLayerAction :=
  match currentDocument with
  | none => .errorNoDocument
  | some document =>
    if layersReplaced then
      .updateDocument
    else
      match document.layers.byID eventLayerID with
      | none => .updateDocument
      | some layer => .removeLayer layer.id

/-- The outcome of `handleTypeModalStateCanceled` (lines 298-307): a thrown
error when no document is active, otherwise a transfer to
`layers.resetLayers` on the currently selected layers. -/
inductive CancelAction where
  | errorNoDocument
  | resetLayers (layerIDs : List Nat)
deriving DecidableEq

/-- Embeds `handleTypeModalStateCanceled`: reset the currently selected
layers of the active document. -/
def handleTypeModalStateCanceled (currentDocument : Option Document) :
    CancelAction :=
  match currentDocument with
  | none => .errorNoDocument
  | some document =>
    .resetLayers (document.layers.selectedLayers.map Layer.id)

/-- The module-level session flags of type.js: `_layerDeleted` (line 72, a
nullable layer id) and `_layersReplaced` (line 60). -/
structure TypeToolState where
  layerDeleted : Option Int
  layersReplaced : Bool
deriving DecidableEq

/-- Truthiness of the nullable numeric `_layerDeleted` flag: `null` and `0`
are falsy, every other number is truthy. -/
def jsTruthyOptInt : Option Int → Bool
  | none => false
  | some n => n != 0

/-- A `toolModalStateChanged` host event, restricted to the fields the
handler reads. -/
structure ModalStateEvent where
  kind : String
  toolID : String
  state : String
  reason : String
deriving DecidableEq

/-- The condition of lines 168-169: the event indicates that the text tool
modal state exited because the user canceled. -/
def isTypeToolCancel (e : ModalStateEvent) : Bool :=
  e.kind == "tool" && e.toolID == "txBx" && e.state == "exit" && e.reason == "cancel"

/-- The follow-up action the modal listeners invoke. -/
inductive TypeSessionAction where
  | handleDeletedLayerAction (layerID : Int) (layersReplaced : Bool)
  | handleTypeModalStateCanceledAction
deriving DecidableEq

/-- Embeds `_layerDeletedHandler` (lines 161-164): record the deleted layer
id in `_layerDeleted` and invoke `handleDeletedLayer` with the current
`_layersReplaced` flag. -/
def layerDeletedStep (s : TypeToolState) (eventLayerID : Int) :
    TypeToolState × TypeSessionAction :=
  ({ s with layerDeleted := some eventLayerID },
    .handleDeletedLayerAction eventLayerID s.layersReplaced)

/-- Embeds `_toolModalStateChangedHandler` (lines 167-178): on a text-tool
cancel, a truthy `_layerDeleted` record is cleared and nothing further
happens; with no record, `handleTypeModalStateCanceled` is invoked.  Events
that are not a text-tool cancel are ignored. -/
def toolModalStateChangedStep (s : TypeToolState) (e : ModalStateEvent) :
    TypeToolState × Option TypeSessionAction :=
  if isTypeToolCancel e then
    if jsTruthyOptInt s.layerDeleted then
      ({ s with layerDeleted := none }, none)
    else
      (s, some .handleTypeModalStateCanceledAction)
  else
    (s, none)

/-! ### Listener installation (type.js select lines 104-190, deselect
lines 203-215)

Handler functions are identified by the numeric id under which they were
created; each select call creates fresh handler closures. -/

/-- The four modal host events the type tool listens to. -/
inductive TypeEvent where
  | updateTextProperties
  | createTextLayer
  | deleteTextLayer
  | toolModalStateChanged
deriving DecidableEq

/-- The listener table of the descriptor for the four type events, and the
module-level handler references of type.js, plus a counter from which fresh
handler identities are drawn. -/
structure TypeModuleState where
  listeners : TypeEvent → List Nat
  typeChangedHandler : Option Nat
  layerCreatedHandler : Option Nat
  layerDeletedHandler : Option Nat
  modalStateChangedHandler : Option Nat
  nextHandlerId : Nat

/-- The stored module-level handler reference for each event. -/
def storedHandler (st : TypeModuleState) : TypeEvent → Option Nat
  | .updateTextProperties => st.typeChangedHandler
  | .createTextLayer => st.layerCreatedHandler
  | .deleteTextLayer => st.layerDeletedHandler
  | .toolModalStateChanged => st.modalStateChangedHandler

/-- `descriptor.addListener(event, handler)`: append the handler to the
event's listener list. -/
def addListener (ls : TypeEvent → List Nat) (e : TypeEvent) (h : Nat) :
    TypeEvent → List Nat :=
  fun x => if x = e then ls x ++ [h] else ls x

/-- `descriptor.removeListener(event, handler)`: remove the handler from the
event's listener list; removing a null handler reference matches nothing. -/
def removeListener (ls : TypeEvent → List Nat) (e : TypeEvent) (h : Option Nat) :
    TypeEvent → List Nat :=
  match h with
  | none => ls
  | some hid => fun x => if x = e then (ls x).filter (fun y => y ≠ hid) else ls x

/-- Embeds `select` (lines 104-190): first remove any previously installed
instance of each of the four listeners (each removal guarded by the stored
reference being set), then install four fresh handlers and store their
references. -/
def selectStep (st : TypeModuleState) : TypeModuleState :=
  let ls0 := removeListener st.listeners .updateTextProperties st.typeChangedHandler
  let ls1 := removeListener ls0 .createTextLayer st.layerCreatedHandler
  let ls2 := removeListener ls1 .deleteTextLayer st.layerDeletedHandler
  let ls3 := removeListener ls2 .toolModalStateChanged st.modalStateChangedHandler
  let h1 := st.nextHandlerId
  let h2 := st.nextHandlerId + 1
  let h3 := st.nextHandlerId + 2
  let h4 := st.nextHandlerId + 3
  let ls4 := addListener ls3 .updateTextProperties h1
  let ls5 := addListener ls4 .createTextLayer h2
  let ls6 := addListener ls5 .deleteTextLayer h3
  let ls7 := addListener ls6 .toolModalStateChanged h4
  { listeners := ls7
    typeChangedHandler := some h1
    layerCreatedHandler := some h2
    layerDeletedHandler := some h3
    modalStateChangedHandler := some h4
    nextHandlerId := st.nextHandlerId + 4 }

/-- Embeds `deselect` (lines 203-215): remove all four listeners using the
stored references and clear the references. -/
def deselectStep (st : TypeModuleState) : TypeModuleState :=
  let ls0 := removeListener st.listeners .updateTextProperties st.typeChangedHandler
  let ls1 := removeListener ls0 .createTextLayer st.layerCreatedHandler
  let ls2 := removeListener ls1 .deleteTextLayer st.layerDeletedHandler
  let ls3 := removeListener ls2 .toolModalStateChanged st.modalStateChangedHandler
  { listeners := ls3
    typeChangedHandler := none
    layerCreatedHandler := none
    layerDeletedHandler := none
    modalStateChangedHandler := none
    nextHandlerId := st.nextHandlerId }

/-- The state at process start: no listeners installed, no stored handler
references. -/
def initTypeModuleState : TypeModuleState :=
  { listeners := fun _ => []
    typeChangedHandler := none
    layerCreatedHandler := none
    layerDeletedHandler := none
    modalStateChangedHandler := none
    nextHandlerId := 0 }

/-- The module invariant relating the descriptor's listener table to the
stored handler references: for each of the four events, the installed
listeners are exactly the stored reference. -/
def TypeModuleInv (st : TypeModuleState) : Prop :=
  ∀ e, st.listeners e = (storedHandler st e).toList

/-! ## Batched layer-descriptor fetch (js/models/menuitem.js,
_getLayersByRef, lines 487-550) -/

/-- The required layer properties requested from Photoshop (lines 443-454). -/
def _layerProperties : List String :=
  ["layerID", "name", "visible", "layerLocking", "itemIndex", "background",
   "boundsNoEffects", "opacity", "layerFXVisible", "mode"]

/-- The optional layer properties requested with per-item error tolerance
(lines 461-476). -/
def _optionalLayerProperties : List String :=
  ["adjustment", "AGMStrokeStyleInfo", "textKey", "layerKind", "keyOriginType",
   "fillEnabled", "fillOpacity", "layerEffects", "proportionalScaling",
   "artboard", "artboardEnabled", "pathBounds", "smartObject", "globalAngle"]

/-- One step of the zipping reduce of `_getLayersByRef`: from the flat index
of the response entry, compute `propertyIndex = index % properties.length`,
push a fresh object when it is zero, and let `write` record the response
value under the property name on the object under construction.  `write` is
`jsSetKey` for the required fetch and `writeOptional` for the tolerant
fetch, whose conditional assignment leaves the object unchanged when the
property is absent. -/
def zipStep {α β : Type} (props : List String)
    (write : JsObj α → String → β → JsObj α)
    (results : List (JsObj α)) (iv : Nat × β) : List (JsObj α) :=
  let propertyIndex := iv.1 % props.length
  let results1 := if propertyIndex == 0 then results ++ [[]] else results
  updateLast (fun r => write r (props.getD propertyIndex "") iv.2) results1

/-- The zipping reduce of `_getLayersByRef` over a flattened batched host
response, rebuilding one object per reference while preserving input
order. -/
def zipProps {α β : Type} (props : List String)
    (write : JsObj α → String → β → JsObj α) (resp : List β) : List (JsObj α) :=
  resp.enum.foldl (zipStep props write) []

/-- The per-entry result of the optional fetch, issued with
`continueOnError`: `none` stands for a falsy per-item value (the item
failed), `some obj` for the returned property bag. -/
abbrev OptionalItem (α : Type) := Option (JsObj α)

/-- The guarded assignment of the optional reduce (lines 535-537):
`if (value && value.hasOwnProperty(property)) result[property] = value[property]`. -/
def writeOptional {α : Type} (r : JsObj α) (p : String) (v : OptionalItem α) :
    JsObj α :=
  match v with
  | none => r
  | some obj =>
    match obj.lookup p with
    | none => r
    | some x => jsSetKey r p x

/-- The effective property written by one optional step, when the item is
truthy and carries the property: used to relate the conditional assignment
of `writeOptional` to plain property assignment. -/
def optEntry {α : Type} (pv : String × OptionalItem α) : Option (String × α) :=
  match pv.2 with
  | none => none
  | some obj =>
    match obj.lookup pv.1 with
    | none => none
    | some x => some (pv.1, x)

/-- Embeds `_getLayersByRef`, as a function of the two batched host
responses: zip the required response by the required property list, zip the
tolerant response by the optional property list, and merge each optional bag
into the corresponding required descriptor with `_.assign`, preserving the
order of the input references. -/
def _getLayersByRef {α : Type} (requiredResp : List α)
    (optionalResp : List (OptionalItem α)) : List (JsObj α) :=
  let allProperties := zipProps _layerProperties jsSetKey requiredResp
  let allOptionalProperties := zipProps _optionalLayerProperties writeOptional optionalResp
  allProperties.enum.map (fun iv => jsAssign iv.2 (allOptionalProperties.getD iv.1 []))

/-- The object the zipping reduce builds for one chunk of per-reference
response values: each property of `props` written in order by `write` onto
an initially empty object. -/
def buildObj {α β : Type} (props : List String)
    (write : JsObj α → String → β → JsObj α) (chunk : List β) : JsObj α :=
  (props.zip chunk).foldl (fun r pv => write r pv.1 pv.2) []

/-- The chunked reading of the zipping reduce: one object per group of
`k` consecutive response values.  Proved below to agree with `zipProps`
whenever the response length is a multiple of the property count. -/
def zipChunks {α β : Type} (k : Nat) (props : List String)
    (write : JsObj α → String → β → JsObj α) (resp : List β) : List (JsObj α) :=
  match k, resp with
  | _, [] => []
  | 0, _ => []
  | k + 1, a :: t =>
    buildObj props write ((a :: t).take (k + 1)) ::
      zipChunks (k + 1) props write ((a :: t).drop (k + 1))
termination_by resp.length
decreasing_by
  simp only [List.drop_succ_cons, List.length_cons, List.length_drop]
  omega

/-! ## Menu descriptor processing (js/models/menuitem.js,
MenuItem.fromDescriptor, lines 175-275)

The collaborators consumed by the descriptor processing (the localization
table behind nls.localize, the os.eventKeyCode map, UI.commandKind, the
modifiersToBits helper of js/util/key.js, and the build-time debug flag) are
external to the sources here and are modelled as an environment record. -/

/-- The external collaborators of descriptor processing.  `entryLabel` is
the localized label for a leaf entry id; `submenuMENU` is the `$MENU` field
of the localized label object for a submenu id, when the localization table
has one. -/
structure MenuEnv where
  entryLabel : String → String
  submenuMENU : String → Option String
  eventKeyCode : String → Option Nat
  commandKindMap : String → Option String
  modifiersToBits : List String → Nat
  debugMode : Bool

/-- A raw shortcut descriptor: `keyChar`, `keyCode` and `modifiers` are
properties that may be absent. -/
structure RawShortcut where
  keyChar : Option String
  keyCode : Option String
  modifiers : Option (List String)
deriving DecidableEq

/-- A raw menu descriptor.  Optional fields model property presence; the
`separator` and `debug` flags model the truthiness of those properties. -/
inductive RawMenu where
  | mk (separator : Bool) (id : Option String) (enabled : Option Bool)
      (submenu : Option (List RawMenu)) (commandKind : Option String)
      (shortcut : Option RawShortcut) (debug : Bool)

/-- The `debug` flag of a raw menu descriptor. -/
def RawMenu.debugFlag : RawMenu → Bool
  | .mk _ _ _ _ _ _ d => d

/-- The processed shortcut stored on a menu item (js/models/menushortcut.js
record contents as built at lines 237-271). -/
structure MenuShortcutRec where
  modifiers : Nat
  keyChar : Option String
  keyCode : Option Nat
deriving DecidableEq

/-- A processed menu item (the MenuItem record, lines 43-97), restricted to
the fields fromDescriptor populates. -/
inductive MenuItemRec where
  | mk (type id itemID label command commandKind : Option String)
      (submenu : Option (List MenuItemRec))
      (shortcut : Option MenuShortcutRec)
      (enabled checked : Bool)

/-- The shortcut existence table
`Object.<string, Object.<number, boolean>>`: for each table key, the set of
modifier-bit values already claimed. -/
abbrev ShortcutTable := List (String × List Nat)

/-- Whether `shortcutTable[key][bits]` is truthy. -/
def tableHas (t : ShortcutTable) (k : String) (bits : Nat) : Bool :=
  match t.lookup k with
  | none => false
  | some l => l.contains bits

/-- Record `shortcutTable[key][bits] = true`, creating the inner object when
the key is new (lines 261-269). -/
def tableAdd (t : ShortcutTable) (k : String) (bits : Nat) : ShortcutTable :=
  match t.lookup k with
  | none => t ++ [(k, [bits])]
  | some l => t.map (fun kv => if kv.1 = k then (k, l ++ [bits]) else kv)

/-- Embeds the shortcut block of fromDescriptor (lines 232-272): reject a
shortcut that specifies both a key char and a key code, or neither; resolve
a key code through `os.eventKeyCode`, rejecting unknown codes; reject a
shortcut whose table key and modifier bits are already claimed, and claim
them otherwise. -/
def processShortcut (env : MenuEnv) (sc : RawShortcut) (t : ShortcutTable) :
    Except String (MenuShortcutRec × ShortcutTable) :=
  let rawModifierBits := env.modifiersToBits (match sc.modifiers with
    | some m => m
    | none => [])
  if jsTruthyStr sc.keyChar && jsTruthyStr sc.keyCode then
    .error "Menu entry specifies both key char and code"
  else if jsTruthyStr sc.keyChar then
    let c := match sc.keyChar with
      | some c => c
      | none => ""
    let shortcutTableKey := "char-" ++ c
    if tableHas t shortcutTableKey rawModifierBits then
      .error ("Menu entry shortcut duplicate: " ++ shortcutTableKey)
    else
      .ok ({ modifiers := rawModifierBits, keyChar := some c, keyCode := none },
        tableAdd t shortcutTableKey rawModifierBits)
  else if jsTruthyStr sc.keyCode then
    let c := match sc.keyCode with
      | some c => c
      | none => ""
    match env.eventKeyCode c with
    | none => .error ("Menu entry specifies unknown key code: " ++ c)
    | some kc =>
      let shortcutTableKey := "code-" ++ c
      if tableHas t shortcutTableKey rawModifierBits then
        .error ("Menu entry shortcut duplicate: " ++ shortcutTableKey)
      else
        .ok ({ modifiers := rawModifierBits, keyChar := none, keyCode := some kc },
          tableAdd t shortcutTableKey rawModifierBits)
  else
    .error "Menu entry does not specify a key for its shortcut"

/-- The full id built from the prefix and the raw id (lines 192-197):
`prefix === undefined ? rawMenu.id : prefix + "." + rawMenu.id`. -/
def menuFullId (pfx : Option String) (rawId : String) : String :=
  match pfx with
  | none => rawId
  | some p => p ++ "." ++ rawId

/-- The tail of fromDescriptor shared by the submenu and leaf branches
(lines 228-274): resolve the optional commandKind through `UI.commandKind`
and process the optional shortcut against the threaded table, then build
the MenuItem record. -/
def finishItem (env : MenuEnv) (rawId id : String) (enabledV : Bool)
    (commandKind0 : Option String) (shortcut0 : Option RawShortcut)
    (labelV : String) (submenuV : Option (List MenuItemRec))
    (commandV : Option String) (t1 : ShortcutTable) :
    Except String (MenuItemRec × ShortcutTable) :=
  let commandKindV := match commandKind0 with
    | some ck => env.commandKindMap ck
    | none => none
  match shortcut0 with
  | none =>
    .ok (.mk none (some id) (some rawId) (some labelV) commandV
      commandKindV submenuV none enabledV false, t1)
  | some sc =>
    match processShortcut env sc t1 with
    | .error e => .error e
    | .ok (scRec, t2) =>
      .ok (.mk none (some id) (some rawId) (some labelV) commandV
        commandKindV submenuV (some scRec) enabledV false, t2)

mutual

/-- Embeds `MenuItem.fromDescriptor`: a separator descriptor yields a
separator item; a non-separator descriptor must carry an id; a submenu
descriptor takes its `$MENU` label and recursively processes its children
(debug-only children are dropped outside debug mode), a leaf takes its
entry label and the id as its command; the optional shortcut is processed
against the threaded shortcut existence table.  Failures are JavaScript
throws, modelled as `Except.error` with the thrown message. -/
def MenuItem.fromDescriptor (env : MenuEnv) (rawMenu : RawMenu)
    (pfx : Option String) (shortcutTable : ShortcutTable) :
    Except String (MenuItemRec × ShortcutTable) :=
  match rawMenu with
  | .mk separator0 id0 enabled0 submenu0 commandKind0 shortcut0 _dbg =>
    if separator0 then
      .ok (.mk (some "separator") none none none none none none none true false,
        shortcutTable)
    else
      match id0 with
      | none => .error "Missing menu id"
      | some rawId =>
        let id := menuFullId pfx rawId
        let enabledV := match enabled0 with
          | some b => b
          | none => true
        match submenu0 with
        | some rawSubMenu =>
          match env.submenuMENU id with
          | none => .error ("Missing label for menu: " ++ id)
          | some labelV =>
            match MenuItem.fromDescriptorList env rawSubMenu id shortcutTable with
            | .error e => .error e
            | .ok (items, t1) =>
              finishItem env rawId id enabledV commandKind0 shortcut0
                labelV (some items) none t1
        | none =>
          finishItem env rawId id enabledV commandKind0 shortcut0
            (env.entryLabel id) none (some id) shortcutTable
termination_by sizeOf rawMenu

/-- Embeds
`rawSubMenu.filter(entry => debugMode || !entry.debug).map(fromDescriptor)`
(lines 211-220), threading the shared shortcut table left to right and
stopping at the first thrown error, as the synchronous map does. -/
def MenuItem.fromDescriptorList (env : MenuEnv) (l : List RawMenu)
    (pfx : String) (t : ShortcutTable) :
    Except String (List MenuItemRec × ShortcutTable) :=
  match l with
  | [] => .ok ([], t)
  | m :: rest =>
    if m.debugFlag && !env.debugMode then
      MenuItem.fromDescriptorList env rest pfx t
    else
      match MenuItem.fromDescriptor env m (some pfx) t with
      | .error e => .error e
      | .ok (item, t1) =>
        match MenuItem.fromDescriptorList env rest pfx t1 with
        | .error e => .error e
        | .ok (items, t2) => .ok (item :: items, t2)
termination_by sizeOf l

end

/-- A concrete well-formed environment: the localization table has a label
and a `$MENU` label for every id, one known key code, and no command
kinds. -/
def sampleMenuEnv : MenuEnv :=
  { entryLabel := fun s => s
    submenuMENU := fun s => some s
    eventKeyCode := fun s => if s = "WIN_LEFT" then some 37 else none
    commandKindMap := fun _ => none
    modifiersToBits := fun l => l.length
    debugMode := false }

/-- The error messages of the synchronous validation failures of
fromDescriptor: missing id, conflicting shortcut keys, no shortcut key,
unknown key code, duplicate shortcut. -/
def validationError (e : String) : Prop :=
  e = "Missing menu id" ∨
  e = "Menu entry specifies both key char and code" ∨
  e = "Menu entry does not specify a key for its shortcut" ∨
  (∃ s, e = "Menu entry specifies unknown key code: " ++ s) ∨
  (∃ s, e = "Menu entry shortcut duplicate: " ++ s)

/-! # Theorems -/

/-! ## C1: the replacement-on-add heuristic -/

/-- C1: evaluation of `addLayersCommand` at the spec scenario.  The document
has no artboard and exactly one zero-area, non-background, unselected
layer, one layer is being added, and the replace argument is omitted.  The
dispatched ADD_LAYERS payload carries replace=false, not the replace=true
the claim (and the code's own comment, which demands selection only when an
artboard is present) requires: the final conjunct of the heuristic,
`document.layers.hasArtboard && first.selected`, is false whenever the
document has no artboard. -/
theorem C1_addLayers_replace_eval :
    emptyCanvasDoc.layers.hasArtboard = false ∧
    emptyCanvasDoc.layers.all.length = 1 ∧
    (∀ l ∈ emptyCanvasDoc.layers.all,
      l.isBackground = false ∧ l.bounds = some { area := 0 } ∧ l.selected = false) ∧
    (addLayersCommand emptyCanvasDoc (.num 6) none none
      ([] : List (JsObj Nat))).replace = false := by
  decide

/-! ## C10: a falsy replace argument always runs the heuristic -/

/-- C10: `addLayersCommand` treats an explicit replace=false argument
exactly like an omitted one — the heuristic runs whenever the argument is
falsy, so the two calls dispatch identical payloads — and a truthy replace
argument bypasses the heuristic, forcing replace=true in the payload. -/
theorem C10_replace_falsy_identity :
    ∀ (document : Document) (layerSpec : LayerSpecArg) (selectedArg : Option Bool)
      (descriptors : List (JsObj Nat)),
    addLayersCommand document layerSpec selectedArg none descriptors =
        addLayersCommand document layerSpec selectedArg (some false) descriptors ∧
    (addLayersCommand document layerSpec selectedArg (some true)
        descriptors).replace = true := by
  intro document layerSpec selectedArg descriptors
  constructor
  · simp [addLayersCommand, computeReplace, jsTruthy]
  · simp [addLayersCommand, computeReplace, jsTruthy]

/-! ## C2: deleteTextLayer after a replacing add forces a full resync -/

/-- C2: when the session's layers-replaced flag is set, `handleDeletedLayer`
transfers a full `updateDocument` resync; when it is not set and the layer
exists in the model, it removes just that layer. -/
theorem C2_handleDeletedLayer_resync (document : Document) (layerID : Nat) :
    handleDeletedLayer (some document) layerID true =
        DeletedLayerAction.updateDocument ∧
    (∀ layer, document.layers.byID layerID = some layer →
      handleDeletedLayer (some document) layerID false =
        DeletedLayerAction.removeLayer layer.id) := by
  constructor
  · rfl
  · intro layer h
    simp [handleDeletedLayer, h]

/-- Witness for C2 at the spec scenario: the session replaced a placeholder,
then a deleteTextLayer event arrives for a layer of the document. -/
theorem C2_witness :
    handleDeletedLayer (some emptyCanvasDoc) 5 true =
        DeletedLayerAction.updateDocument ∧
    handleDeletedLayer (some emptyCanvasDoc) 5 false =
        DeletedLayerAction.removeLayer 5 :=
  ⟨(C2_handleDeletedLayer_resync emptyCanvasDoc 5).1,
   (C2_handleDeletedLayer_resync emptyCanvasDoc 5).2
     { id := 5, isBackground := false, bounds := some { area := 0 },
       selected := false } (by decide)⟩

/-! ## C3: the grouping depth guard and empty selection -/

/-- C3: `groupSelectedLayersCommand` resolves with no host request and no
dispatched event both when the selection is empty and when some selected
layer's maximum descendant depth exceeds the nesting ceiling of 9. -/
theorem C3_groupSelected_guard (document : Document) (groupResult : GroupResult) :
    (document.layers.selectedLayers = [] →
      groupSelectedLayersCommand document groupResult =
        { hostRequests := [], dispatches := [] }) ∧
    ((∃ layer ∈ document.layers.selectedLayers,
        document.layers.maxDescendantDepth layer.id > PS_MAX_NEST_DEPTH) →
      groupSelectedLayersCommand document groupResult =
        { hostRequests := [], dispatches := [] }) := by
  constructor
  · intro h
    simp [groupSelectedLayersCommand, h]
  · rintro ⟨layer, hmem, hdepth⟩
    have hne : (document.layers.selectedLayers.length == 0) = false := by
      cases hl : document.layers.selectedLayers with
      | nil => rw [hl] at hmem; exact absurd hmem (List.not_mem_nil _)
      | cons a t => simp
    have hany : document.layers.selectedLayers.any (fun layer =>
        document.layers.maxDescendantDepth layer.id > PS_MAX_NEST_DEPTH) = true := by
      rw [List.any_eq_true]
      exact ⟨layer, hmem, by simpa using hdepth⟩
    simp [groupSelectedLayersCommand, hne, hany]

/-- Witness for C3: a document whose selected layer nests at depth 10 and a
document with nothing selected both group as no-ops. -/
theorem C3_witness :
    groupSelectedLayersCommand deepDoc ⟨1, 2, "Group 1"⟩ =
      { hostRequests := [], dispatches := [] } ∧
    groupSelectedLayersCommand emptyCanvasDoc ⟨1, 2, "Group 1"⟩ =
      { hostRequests := [], dispatches := [] } :=
  ⟨(C3_groupSelected_guard deepDoc _).2
     ⟨{ id := 7, isBackground := false, bounds := none, selected := true },
      by decide, by decide⟩,
   (C3_groupSelected_guard emptyCanvasDoc _).1 (by decide)⟩

/-! ## C4: the background shift of index-addressed references -/

/-- Membership in a descending lodash range: the integers strictly above
`stop` and at most `start`. -/
theorem mem_lodashRangeDown :
    ∀ (n : Nat) (start stop x : Int), (start - stop).toNat = n →
      (x ∈ lodashRangeDown start stop ↔ stop < x ∧ x ≤ start) := by
  intro n
  induction n using Nat.strong_induction_on with
  | _ n ih =>
    intro start stop x hn
    rw [lodashRangeDown]
    by_cases h : start ≤ stop
    · simp only [if_pos h, List.not_mem_nil, false_iff]
      omega
    · rw [if_neg h]
      have hlt : stop < start := lt_of_not_le h
      have hsz : (start - 1 - stop).toNat < n := by omega
      rw [List.mem_cons, ih _ hsz (start - 1) stop x rfl]
      omega

/-- C4 counterexample: on a document with no background layer,
`resetLayersByIndexCommand` builds the host reference for input index 3 from
index 3 itself, not from 3 - 1 as the claim states; the subtraction happens
exactly when a background layer is present. -/
theorem C4_counterexample :
    (resetLayersByIndexRefs emptyCanvasDoc (.single 3)).map Prod.snd = [3] ∧
    (resetLayersByIndexRefs emptyCanvasDoc (.single 3)).map Prod.snd ≠ [3 - 1] ∧
    (resetLayersByIndexRefs bgDoc (.single 3)).map Prod.snd = [3 - 1] := by
  refine ⟨rfl, ?_, rfl⟩
  intro h
  simp [resetLayersByIndexRefs, IndexSpecArg.toList, emptyCanvasDoc] at h

/-- C4 amended: `resetLayersByIndexCommand` builds the host layer reference
from index i - 1 exactly when the document has a background layer and from i
unchanged when it is absent; consequently the host-to-model inverse
adjustment recovers every input index, and in particular the translation for
background-free documents is the identity, so the index round trip yields i.
The `_getLayerIDsForDocument` host ranges agree with this convention: the
queried host indices reach down to 0 exactly when a background layer is
present, and stop at 1 otherwise. -/
theorem C4_amended_translation (document : Document) (layerIndexes : IndexSpecArg) :
    (document.hasBackgroundLayer = true →
      (resetLayersByIndexRefs document layerIndexes).map Prod.snd =
        layerIndexes.toList.map (fun i => i - 1)) ∧
    (document.hasBackgroundLayer = false →
      (resetLayersByIndexRefs document layerIndexes).map Prod.snd =
        layerIndexes.toList) ∧
    ((resetLayersByIndexRefs document layerIndexes).map
        (fun r => hostIndexToModel document r.2) = layerIndexes.toList) ∧
    (∀ n : Nat, 1 ≤ n →
      (0 : Int) ∈ getLayerIDsHostIndices n true ∧
      (0 : Int) ∉ getLayerIDsHostIndices n false ∧
      (1 : Int) ∈ getLayerIDsHostIndices n false ∧
      ((n : Int)) ∈ getLayerIDsHostIndices n true) := by
  refine ⟨?_, ?_, ?_, ?_⟩
  · intro hb
    simp [resetLayersByIndexRefs, hb]
  · intro hb
    simp [resetLayersByIndexRefs, hb]
  · rw [resetLayersByIndexRefs, List.map_map]
    have hcomp : ∀ i ∈ layerIndexes.toList,
        ((fun r : Nat × Int => hostIndexToModel document r.2) ∘ fun idx =>
          (document.id, if document.hasBackgroundLayer then idx - 1 else idx)) i = i := by
      intro i _
      simp only [Function.comp, hostIndexToModel]
      cases hb : document.hasBackgroundLayer <;> simp
    rw [List.map_congr_left hcomp]
    simp
  · intro n hn
    have hT : ∀ x : Int, x ∈ getLayerIDsHostIndices n true ↔
        -1 < x ∧ x ≤ (n : Int) := by
      intro x
      rw [show getLayerIDsHostIndices n true =
            lodashRangeDown (n : Int) ((0 : Int) - 1) from rfl,
        mem_lodashRangeDown ((n : Int) - ((0 : Int) - 1)).toNat _ _ _ rfl]
      omega
    have hF : ∀ x : Int, x ∈ getLayerIDsHostIndices n false ↔
        0 < x ∧ x ≤ (n : Int) := by
      intro x
      rw [show getLayerIDsHostIndices n false =
            lodashRangeDown (n : Int) ((1 : Int) - 1) from rfl,
        mem_lodashRangeDown ((n : Int) - ((1 : Int) - 1)).toNat _ _ _ rfl]
      omega
    refine ⟨?_, ?_, ?_, ?_⟩
    · rw [hT]
      omega
    · rw [hF]
      omega
    · rw [hF]
      omega
    · rw [hT]
      omega

/-- Witness for C4 amended, at a background document and a background-free
document with input index 3, and at a one-layer host range. -/
theorem C4_witness :
    bgDoc.hasBackgroundLayer = true ∧
    (resetLayersByIndexRefs bgDoc (.single 3)).map Prod.snd =
      (IndexSpecArg.single 3).toList.map (fun i => i - 1) ∧
    emptyCanvasDoc.hasBackgroundLayer = false ∧
    (resetLayersByIndexRefs emptyCanvasDoc (.single 3)).map Prod.snd =
      (IndexSpecArg.single 3).toList ∧
    (0 : Int) ∈ getLayerIDsHostIndices 1 true :=
  ⟨rfl,
   (C4_amended_translation bgDoc (.single 3)).1 rfl,
   rfl,
   (C4_amended_translation emptyCanvasDoc (.single 3)).2.1 rfl,
   ((C4_amended_translation bgDoc (.single 3)).2.2.2 1 (by decide)).1⟩

/-! ## C7: the deleted-layer record suppresses the cancel reset -/

/-- C7: after `_layerDeletedHandler` records a deleted layer id (layer ids of
the host protocol are nonzero), a text-tool cancel event clears the record
and produces no further action; a cancel with no record invokes
`handleTypeModalStateCanceled`, which resets the currently selected layers
of the active document. -/
theorem C7_cancel_suppression (s : TypeToolState) (eventLayerID : Int)
    (e : ModalStateEvent) (document : Document)
    (hid : eventLayerID ≠ 0) (hc : isTypeToolCancel e = true) :
    (toolModalStateChangedStep (layerDeletedStep s eventLayerID).1 e =
      ({ (layerDeletedStep s eventLayerID).1 with layerDeleted := none }, none)) ∧
    (s.layerDeleted = none →
      toolModalStateChangedStep s e =
        (s, some TypeSessionAction.handleTypeModalStateCanceledAction)) ∧
    (handleTypeModalStateCanceled (some document) =
      CancelAction.resetLayers (document.layers.selectedLayers.map Layer.id)) := by
  refine ⟨?_, ?_, rfl⟩
  · simp [toolModalStateChangedStep, layerDeletedStep, hc, jsTruthyOptInt,
      bne_iff_ne, hid]
  · intro h0
    simp [toolModalStateChangedStep, hc, h0, jsTruthyOptInt]

/-- Witness for C7: a session that deleted layer 10 suppresses the cancel
reset; a session with no recorded delete resets the selection. -/
theorem C7_witness :
    (toolModalStateChangedStep
        (layerDeletedStep { layerDeleted := none, layersReplaced := true } 10).1
        { kind := "tool", toolID := "txBx", state := "exit", reason := "cancel" } =
      ({ layerDeleted := none, layersReplaced := true }, none)) ∧
    (toolModalStateChangedStep { layerDeleted := none, layersReplaced := false }
        { kind := "tool", toolID := "txBx", state := "exit", reason := "cancel" } =
      ({ layerDeleted := none, layersReplaced := false },
        some TypeSessionAction.handleTypeModalStateCanceledAction)) ∧
    (handleTypeModalStateCanceled (some emptyCanvasDoc) =
      CancelAction.resetLayers []) :=
  ⟨(C7_cancel_suppression { layerDeleted := none, layersReplaced := true } 10
      { kind := "tool", toolID := "txBx", state := "exit", reason := "cancel" }
      emptyCanvasDoc (by decide) (by decide)).1,
   (C7_cancel_suppression { layerDeleted := none, layersReplaced := false } 10
      { kind := "tool", toolID := "txBx", state := "exit", reason := "cancel" }
      emptyCanvasDoc (by decide) (by decide)).2.1 rfl,
   (C7_cancel_suppression { layerDeleted := none, layersReplaced := false } 10
      { kind := "tool", toolID := "txBx", state := "exit", reason := "cancel" }
      emptyCanvasDoc (by decide) (by decide)).2.2⟩

/-! ## C6: selectAll and deselectAll as documented no-ops -/

/-- C6: with no resolvable document, an unsupported document, or a flat
document (for deselectAll a single background layer, for selectAll no
layers), both commands resolve with no host request and no dispatch. -/
theorem C6_selectAll_deselectAll_noop (docArg currentDoc : Option Document) :
    (resolveDocArg docArg currentDoc = none →
      deselectAllLayersCommand docArg currentDoc =
          { hostRequests := [], dispatches := [] } ∧
      selectAllLayersCommand docArg currentDoc =
          { hostRequests := [], dispatches := [] }) ∧
    (∀ d, resolveDocArg docArg currentDoc = some d → d.unsupported = true →
      deselectAllLayersCommand docArg currentDoc =
          { hostRequests := [], dispatches := [] } ∧
      selectAllLayersCommand docArg currentDoc =
          { hostRequests := [], dispatches := [] }) ∧
    (∀ d l, resolveDocArg docArg currentDoc = some d → d.layers.all = [l] →
      l.isBackground = true →
      deselectAllLayersCommand docArg currentDoc =
        { hostRequests := [], dispatches := [] }) ∧
    (∀ d, resolveDocArg docArg currentDoc = some d → d.layers.all = [] →
      selectAllLayersCommand docArg currentDoc =
        { hostRequests := [], dispatches := [] }) := by
  refine ⟨?_, ?_, ?_, ?_⟩
  · intro h
    exact ⟨by simp [deselectAllLayersCommand, h], by simp [selectAllLayersCommand, h]⟩
  · intro d h hu
    exact ⟨by simp [deselectAllLayersCommand, h, hu],
      by simp [selectAllLayersCommand, h, hu]⟩
  · intro d l h hall hbg
    simp [deselectAllLayersCommand, h, hall, hbg]
  · intro d h hall
    simp [selectAllLayersCommand, h, hall]

/-- Witness for C6: a flat single-background-layer document deselects as a
no-op, an empty document selects-all as a no-op, and with no current
document both commands are no-ops. -/
theorem C6_witness :
    deselectAllLayersCommand (some bgDoc) none =
        { hostRequests := [], dispatches := [] } ∧
    selectAllLayersCommand (some noLayersDoc) none =
        { hostRequests := [], dispatches := [] } ∧
    deselectAllLayersCommand none none =
        { hostRequests := [], dispatches := [] } ∧
    selectAllLayersCommand (some unsupportedDoc) none =
        { hostRequests := [], dispatches := [] } :=
  ⟨(C6_selectAll_deselectAll_noop (some bgDoc) none).2.2.1 bgDoc
     { id := 1, isBackground := true, bounds := none, selected := false }
     rfl rfl rfl,
   (C6_selectAll_deselectAll_noop (some noLayersDoc) none).2.2.2 noLayersDoc rfl rfl,
   ((C6_selectAll_deselectAll_noop none none).1 rfl).1,
   ((C6_selectAll_deselectAll_noop (some unsupportedDoc) none).2.1
     unsupportedDoc rfl rfl).2⟩

/-! ## C8: idempotent listener installation -/

/-- After a select step from an invariant state, each of the four events has
exactly the fresh stored handler installed. -/
theorem selectStep_installs (st : TypeModuleState) (hinv : TypeModuleInv st) :
    ∀ e, (selectStep st).listeners e = (storedHandler (selectStep st) e).toList ∧
      ((selectStep st).listeners e).length = 1 := by
  intro e
  have h1 := hinv .updateTextProperties
  have h2 := hinv .createTextLayer
  have h3 := hinv .deleteTextLayer
  have h4 := hinv .toolModalStateChanged
  simp only [storedHandler] at h1 h2 h3 h4
  rcases hA : st.typeChangedHandler with _ | a <;>
    rcases hB : st.layerCreatedHandler with _ | b <;>
    rcases hC : st.layerDeletedHandler with _ | c <;>
    rcases hD : st.modalStateChangedHandler with _ | d <;>
    rw [hA] at h1 <;> rw [hB] at h2 <;> rw [hC] at h3 <;> rw [hD] at h4 <;>
    cases e <;>
    simp [selectStep, addListener, removeListener, storedHandler,
      hA, hB, hC, hD, h1, h2, h3, h4]

/-- A deselect step from an invariant state removes all four listeners and
clears the stored references. -/
theorem deselectStep_clears (st : TypeModuleState) (hinv : TypeModuleInv st) :
    ∀ e, (deselectStep st).listeners e = [] ∧
      storedHandler (deselectStep st) e = none := by
  intro e
  have h1 := hinv .updateTextProperties
  have h2 := hinv .createTextLayer
  have h3 := hinv .deleteTextLayer
  have h4 := hinv .toolModalStateChanged
  simp only [storedHandler] at h1 h2 h3 h4
  rcases hA : st.typeChangedHandler with _ | a <;>
    rcases hB : st.layerCreatedHandler with _ | b <;>
    rcases hC : st.layerDeletedHandler with _ | c <;>
    rcases hD : st.modalStateChangedHandler with _ | d <;>
    rw [hA] at h1 <;> rw [hB] at h2 <;> rw [hC] at h3 <;> rw [hD] at h4 <;>
    cases e <;>
    simp [deselectStep, removeListener, storedHandler,
      hA, hB, hC, hD, h1, h2, h3, h4]

/-- The module invariant is preserved by iterated select steps. -/
theorem typeInv_iterate_selectStep (st : TypeModuleState) (hinv : TypeModuleInv st) :
    ∀ n, TypeModuleInv (selectStep^[n] st) := by
  intro n
  induction n with
  | zero => simpa using hinv
  | succ n ih =>
    rw [Function.iterate_succ_apply']
    exact fun e => (selectStep_installs _ ih e).1

/-- C8: from the startup state, and more generally from any state satisfying
the listener-table invariant, every select step reinstalls the four modal
listeners after removing the previously installed instances, so any nonzero
number of select calls without an intervening deselect leaves exactly one
installed instance of each listener; a deselect removes all four listeners
and clears the stored handler references. -/
theorem C8_listener_discipline :
    TypeModuleInv initTypeModuleState ∧
    (∀ st, TypeModuleInv st →
      TypeModuleInv (selectStep st) ∧ TypeModuleInv (deselectStep st)) ∧
    (∀ st n, TypeModuleInv st → 0 < n →
      ∀ e, ((selectStep^[n] st).listeners e).length = 1 ∧
        (storedHandler (selectStep^[n] st) e).isSome = true) ∧
    (∀ st, TypeModuleInv st →
      ∀ e, (deselectStep st).listeners e = [] ∧
        storedHandler (deselectStep st) e = none) := by
  refine ⟨fun e => by cases e <;> rfl, ?_, ?_, ?_⟩
  · intro st hinv
    refine ⟨fun e => (selectStep_installs st hinv e).1, fun e => ?_⟩
    rw [(deselectStep_clears st hinv e).1, (deselectStep_clears st hinv e).2]
    rfl
  · intro st n hinv hn e
    obtain ⟨m, rfl⟩ : ∃ m, n = m + 1 := ⟨n - 1, by omega⟩
    rw [Function.iterate_succ_apply']
    have hm := typeInv_iterate_selectStep st hinv m
    refine ⟨(selectStep_installs _ hm e).2, ?_⟩
    have hlist := (selectStep_installs _ hm e).1
    have hlen := (selectStep_installs _ hm e).2
    cases hs : storedHandler (selectStep (selectStep^[m] st)) e with
    | none =>
      rw [hs] at hlist
      rw [hlist] at hlen
      simp at hlen
    | some h =>
      simp
  · intro st hinv e
    exact deselectStep_clears st hinv e

/-- Witness for C8: two select calls in a row from startup leave exactly one
createTextLayer listener, and a deselect from startup leaves none. -/
theorem C8_witness :
    (((selectStep^[2]) initTypeModuleState).listeners
      TypeEvent.createTextLayer).length = 1 ∧
    (deselectStep initTypeModuleState).listeners TypeEvent.deleteTextLayer = [] :=
  ⟨(C8_listener_discipline.2.2.1 initTypeModuleState 2 C8_listener_discipline.1
      (by decide) TypeEvent.createTextLayer).1,
   (C8_listener_discipline.2.2.2 initTypeModuleState C8_listener_discipline.1
      TypeEvent.deleteTextLayer).1⟩

/-! ## C5: shape of the batched property fetch -/

/-- Lookup of a cons cell, written with pair projections. -/
theorem lookup_cons_fst {α : Type} (a : String × α) (t : JsObj α) (x : String) :
    (a :: t).lookup x = if x = a.1 then some a.2 else t.lookup x := by
  obtain ⟨k, v⟩ := a
  by_cases hx : x = k
  · simp [List.lookup_cons, hx]
  · simp [List.lookup_cons, beq_false_of_ne hx, hx]

/-- Replacing the value of one key does not change lookups of other keys. -/
theorem lookup_map_replace {α : Type} (t : JsObj α) (k x : String) (v : α)
    (hx : x ≠ k) :
    (t.map (fun kv => if kv.1 = k then (k, v) else kv)).lookup x = t.lookup x := by
  induction t with
  | nil => rfl
  | cons a t ih =>
    rw [List.map_cons]
    by_cases h : a.1 = k
    · rw [if_pos h, lookup_cons_fst, lookup_cons_fst, if_neg hx, ih,
        if_neg (h ▸ hx)]
    · rw [if_neg h, lookup_cons_fst, lookup_cons_fst, ih]

/-- Setting a key on an object whose head has a different key pushes the
head through. -/
theorem jsSetKey_cons_ne {α : Type} (a : String × α) (t : JsObj α)
    (k : String) (v : α) (h : a.1 ≠ k) :
    jsSetKey (a :: t) k v = a :: jsSetKey t k v := by
  simp only [jsSetKey, lookup_cons_fst, if_neg (Ne.symm h)]
  by_cases hs : (t.lookup k).isSome
  · rw [if_pos hs, if_pos hs, List.map_cons, if_neg h]
  · rw [if_neg hs, if_neg hs, List.cons_append]

/-- Property lookup after property assignment. -/
theorem lookup_jsSetKey {α : Type} (obj : JsObj α) (k x : String) (v : α) :
    (jsSetKey obj k v).lookup x = if x = k then some v else obj.lookup x := by
  induction obj with
  | nil =>
    rw [jsSetKey]
    by_cases hx : x = k <;>
      simp [lookup_cons_fst, hx]
  | cons a t ih =>
    by_cases hak : a.1 = k
    · have hsome : ((a :: t).lookup k).isSome := by
        rw [lookup_cons_fst, if_pos hak.symm]
        rfl
      rw [jsSetKey, if_pos hsome, List.map_cons, if_pos hak]
      by_cases hx : x = k
      · rw [lookup_cons_fst, if_pos hx, if_pos hx]
      · rw [lookup_cons_fst, if_neg hx, if_neg hx,
          lookup_map_replace t k x v hx, lookup_cons_fst, if_neg (hak ▸ hx)]
    · rw [jsSetKey_cons_ne a t k v hak, lookup_cons_fst, lookup_cons_fst]
      by_cases hxa : x = a.1
      · have hne : x ≠ k := fun hh => hak (by rw [← hxa, hh])
        rw [if_pos hxa, if_neg hne, if_pos hxa]
      · rw [if_neg hxa, if_neg hxa, ih]

/-- A key matched by no pair of an association list looks up to nothing. -/
theorem lookup_eq_none_of_keys_ne {α : Type} (pairs : List (String × α))
    (x : String) (h : ∀ pv ∈ pairs, pv.1 ≠ x) : pairs.lookup x = none := by
  induction pairs with
  | nil => rfl
  | cons a t ih =>
    have ha : x ≠ a.1 := Ne.symm (h a (List.mem_cons_self a t))
    rw [lookup_cons_fst, if_neg ha]
    exact ih (fun pv hpv => h pv (List.mem_cons_of_mem a hpv))

/-- Folding property assignments whose source does not contain a key leaves
that key's lookup unchanged. -/
theorem lookup_foldl_jsSetKey_of_none {α : Type} (pairs : List (String × α))
    (obj : JsObj α) (x : String) (hx : pairs.lookup x = none) :
    (pairs.foldl (fun d kv => jsSetKey d kv.1 kv.2) obj).lookup x =
      obj.lookup x := by
  induction pairs generalizing obj with
  | nil => rfl
  | cons a t ih =>
    rw [lookup_cons_fst] at hx
    by_cases hxa : x = a.1
    · rw [if_pos hxa] at hx
      exact absurd hx (by simp)
    · rw [if_neg hxa] at hx
      rw [List.foldl_cons, ih _ hx, lookup_jsSetKey, if_neg hxa]

/-- Folding property assignments from a source with distinct keys makes each
source key look up to its source value. -/
theorem lookup_foldl_jsSetKey_of_some {α : Type} (pairs : List (String × α))
    (obj : JsObj α) (x : String) (v : α)
    (hnd : (pairs.map Prod.fst).Nodup) (hx : pairs.lookup x = some v) :
    (pairs.foldl (fun d kv => jsSetKey d kv.1 kv.2) obj).lookup x = some v := by
  induction pairs generalizing obj with
  | nil => exact absurd hx (by simp)
  | cons a t ih =>
    rw [List.map_cons, List.nodup_cons] at hnd
    rw [lookup_cons_fst] at hx
    by_cases hxa : x = a.1
    · rw [if_pos hxa] at hx
      have htx : t.lookup x = none := by
        refine lookup_eq_none_of_keys_ne t x (fun pv hpv h1 => hnd.1 ?_)
        have hm : pv.1 ∈ List.map Prod.fst t := List.mem_map_of_mem Prod.fst hpv
        rwa [h1, hxa] at hm
      rw [List.foldl_cons, lookup_foldl_jsSetKey_of_none t _ x htx,
        lookup_jsSetKey, if_pos hxa]
      exact hx
    · rw [if_neg hxa] at hx
      rw [List.foldl_cons]
      exact ih (jsSetKey obj a.1 a.2) hnd.2 hx

/-- Mutating the last element of a list with a known last element. -/
theorem updateLast_append {α : Type} :
    ∀ (l : List α) (a : α) (f : α → α), updateLast f (l ++ [a]) = l ++ [f a]
  | [], _, _ => rfl
  | [_], _, _ => rfl
  | x :: y :: t, a, f => by
    have ih := updateLast_append (y :: t) a f
    simp only [List.cons_append] at ih ⊢
    rw [updateLast, ih]

/-- Enumeration of an appended list. -/
theorem enumFrom_append {α : Type} :
    ∀ (n : Nat) (l1 l2 : List α),
      List.enumFrom n (l1 ++ l2) =
        List.enumFrom n l1 ++ List.enumFrom (n + l1.length) l2
  | _, [], _ => by simp [List.enumFrom]
  | n, x :: t, l2 => by
    have ih := enumFrom_append (n + 1) t l2
    show (n, x) :: List.enumFrom (n + 1) (t ++ l2) =
      List.enumFrom n (x :: t) ++ List.enumFrom (n + (x :: t).length) l2
    rw [show List.enumFrom n (x :: t) = (n, x) :: List.enumFrom (n + 1) t from rfl,
      List.cons_append, ih,
      show n + 1 + t.length = n + (x :: t).length by
        simp only [List.length_cons]
        omega]

/-- Within a chunk, the zipping reduce writes the remaining properties onto
the object under construction. -/
theorem foldl_zipStep_within {α β : Type} (props : List String)
    (write : JsObj α → String → β → JsObj α) :
    ∀ (tail : List β) (r : Nat), 0 < r → r + tail.length = props.length →
      ∀ (q : Nat) (acc : List (JsObj α)) (obj : JsObj α),
      List.foldl (zipStep props write) (acc ++ [obj])
          (List.enumFrom (q * props.length + r) tail) =
        acc ++ [((props.drop r).zip tail).foldl (fun o pv => write o pv.1 pv.2) obj] := by
  intro tail
  induction tail with
  | nil =>
    intro r _ hK q acc obj
    have : props.drop r = [] := by
      apply List.drop_eq_nil_of_le
      simp at hK
      omega
    simp [List.enumFrom, this]
  | cons v tl ih =>
    intro r hr hK q acc obj
    have hrK : r < props.length := by
      simp only [List.length_cons] at hK
      omega
    rw [List.enumFrom, List.foldl_cons]
    have hmod : (q * props.length + r) % props.length = r := by
      rw [Nat.mul_comm, Nat.mul_add_mod]
      exact Nat.mod_eq_of_lt hrK
    have hstep : zipStep props write (acc ++ [obj]) (q * props.length + r, v) =
        acc ++ [write obj (props.getD r "") v] := by
      rw [zipStep]
      simp only [hmod]
      have hr0 : (r == 0) = false := by
        simp
        omega
      rw [hr0]
      simp only [if_false, Bool.false_eq_true]
      exact updateLast_append acc obj _
    rw [hstep]
    have hdrop : props.drop r = props.get ⟨r, hrK⟩ :: props.drop (r + 1) :=
      List.drop_eq_get_cons hrK
    have hgetD : props.getD r "" = props.get ⟨r, hrK⟩ := by
      rw [List.getD_eq_getD_get? props "" r, List.get?_eq_get hrK]
      rfl
    have hK1 : r + 1 + tl.length = props.length := by
      simp only [List.length_cons] at hK
      omega
    have hidx : q * props.length + r + 1 = q * props.length + (r + 1) := by omega
    rw [hidx, ih (r + 1) (by omega) hK1 q acc (write obj (props.getD r "") v),
      hdrop, List.zip_cons_cons, List.foldl_cons, hgetD]

/-- One full chunk of the zipping reduce appends one fully built object. -/
theorem foldl_zipStep_chunk {α β : Type} (props : List String)
    (write : JsObj α → String → β → JsObj α) (chunk : List β) (q : Nat)
    (hK : chunk.length = props.length) (hpos : 0 < props.length)
    (acc : List (JsObj α)) :
    List.foldl (zipStep props write) acc
        (List.enumFrom (q * props.length) chunk) =
      acc ++ [buildObj props write chunk] := by
  cases chunk with
  | nil =>
    exfalso
    simp only [List.length_nil] at hK
    omega
  | cons v tl =>
    cases props with
    | nil => simp at hpos
    | cons p ps =>
      rw [List.enumFrom, List.foldl_cons]
      have hstep : zipStep (p :: ps) write acc (q * (p :: ps).length, v) =
          acc ++ [write [] p v] := by
        rw [zipStep]
        simp only [Nat.mul_mod_left]
        rw [show ((0 : Nat) == 0) = true from rfl]
        simp only [if_true]
        exact updateLast_append acc ([] : JsObj α) _
      rw [hstep]
      have hK1 : 1 + tl.length = (p :: ps).length := by
        simp only [List.length_cons] at hK ⊢
        omega
      have hidx : q * (p :: ps).length + 1 = q * (p :: ps).length + 1 := rfl
      have := foldl_zipStep_within (p :: ps) write tl 1 (by omega) hK1 q acc
        (write [] p v)
      rw [this]
      rfl

/-- The chunked reading of an empty response. -/
theorem zipChunks_nil {α β : Type} (k : Nat) (props : List String)
    (write : JsObj α → String → β → JsObj α) :
    zipChunks k props write [] = [] := by
  cases k <;> rw [zipChunks]

/-- The chunked reading of a nonempty response with a positive chunk size. -/
theorem zipChunks_cons {α β : Type} (k : Nat) (props : List String)
    (write : JsObj α → String → β → JsObj α) (a : β) (t : List β) :
    zipChunks (k + 1) props write (a :: t) =
      buildObj props write ((a :: t).take (k + 1)) ::
        zipChunks (k + 1) props write ((a :: t).drop (k + 1)) := by
  rw [zipChunks]

/-- The zipping reduce over a whole multiple-of-chunk-size response builds
the chunked reading. -/
theorem foldl_zipStep_chunks {α β : Type} (props : List String)
    (write : JsObj α → String → β → JsObj α) (hpos : 0 < props.length) :
    ∀ (n : Nat) (resp : List β), resp.length = n * props.length →
      ∀ (q : Nat) (acc : List (JsObj α)),
      List.foldl (zipStep props write) acc
          (List.enumFrom (q * props.length) resp) =
        acc ++ zipChunks props.length props write resp := by
  intro n
  induction n with
  | zero =>
    intro resp h q acc
    rw [Nat.zero_mul] at h
    rw [List.length_eq_zero] at h
    subst h
    simp [List.enumFrom, zipChunks_nil]
  | succ n ih =>
    intro resp h q acc
    have hKle : props.length ≤ resp.length := by
      rw [h]
      calc props.length = 1 * props.length := by omega
      _ ≤ (n + 1) * props.length := Nat.mul_le_mul_right _ (by omega)
    have hc : resp = resp.take props.length ++ resp.drop props.length :=
      (List.take_append_drop _ _).symm
    have hcl : (resp.take props.length).length = props.length := by
      rw [List.length_take]
      omega
    have hrl : (resp.drop props.length).length = n * props.length := by
      rw [List.length_drop, h]
      ring_nf
      omega
    conv_lhs => rw [hc]
    rw [enumFrom_append, List.foldl_append,
      foldl_zipStep_chunk props write _ q hcl hpos acc, hcl,
      show q * props.length + props.length = (q + 1) * props.length by ring,
      ih _ hrl (q + 1) _]
    obtain ⟨k, hk⟩ : ∃ k, props.length = k + 1 := ⟨props.length - 1, by omega⟩
    obtain ⟨a, t, ht⟩ : ∃ a t, resp = a :: t := by
      cases resp with
      | nil =>
        exfalso
        simp only [List.length_nil, Nat.le_zero] at hKle
        omega
      | cons a t => exact ⟨a, t, rfl⟩
    subst ht
    rw [show zipChunks props.length props write (a :: t) =
          buildObj props write ((a :: t).take props.length) ::
            zipChunks props.length props write ((a :: t).drop props.length) by
        rw [hk]
        exact zipChunks_cons k props write a t]
    simp

/-- The zipping reduce of `_getLayersByRef` agrees with the chunked reading
whenever the flattened response length is a whole number of chunks. -/
theorem zipProps_eq_zipChunks {α β : Type} (props : List String)
    (write : JsObj α → String → β → JsObj α) (hpos : 0 < props.length)
    (n : Nat) (resp : List β) (h : resp.length = n * props.length) :
    zipProps props write resp = zipChunks props.length props write resp := by
  have hmain := foldl_zipStep_chunks props write hpos n resp h 0 []
  rw [Nat.zero_mul] at hmain
  simpa [zipProps, List.enum] using hmain

/-- The chunked reading of n chunks has n objects. -/
theorem zipChunks_length {α β : Type} (props : List String)
    (write : JsObj α → String → β → JsObj α) (hpos : 0 < props.length) :
    ∀ (n : Nat) (resp : List β), resp.length = n * props.length →
      (zipChunks props.length props write resp).length = n := by
  intro n
  induction n with
  | zero =>
    intro resp h
    rw [Nat.zero_mul, List.length_eq_zero] at h
    subst h
    rw [zipChunks_nil]
    rfl
  | succ n ih =>
    intro resp h
    obtain ⟨k, hk⟩ : ∃ k, props.length = k + 1 := ⟨props.length - 1, by omega⟩
    obtain ⟨a, t, ht⟩ : ∃ a t, resp = a :: t := by
      cases resp with
      | nil =>
        exfalso
        simp only [List.length_nil] at h
        have := Nat.mul_pos (show 0 < n + 1 by omega) hpos
        omega
      | cons a t => exact ⟨a, t, rfl⟩
    subst ht
    rw [hk, zipChunks_cons, List.length_cons, ← hk]
    have hdl : ((a :: t).drop props.length).length = n * props.length := by
      rw [List.length_drop, h]
      have : (n + 1) * props.length = n * props.length + props.length := by ring
      omega
    rw [ih _ hdl]

/-- The j-th object of the chunked reading is built from the j-th chunk. -/
theorem zipChunks_getD {α β : Type} (props : List String)
    (write : JsObj α → String → β → JsObj α) (hpos : 0 < props.length) :
    ∀ (n : Nat) (resp : List β), resp.length = n * props.length →
      ∀ j, j < n →
      (zipChunks props.length props write resp).getD j [] =
        buildObj props write ((resp.drop (j * props.length)).take props.length) := by
  intro n
  induction n with
  | zero =>
    intro resp h j hj
    omega
  | succ n ih =>
    intro resp h j hj
    obtain ⟨k, hk⟩ : ∃ k, props.length = k + 1 := ⟨props.length - 1, by omega⟩
    obtain ⟨a, t, ht⟩ : ∃ a t, resp = a :: t := by
      cases resp with
      | nil =>
        exfalso
        simp only [List.length_nil] at h
        have := Nat.mul_pos (show 0 < n + 1 by omega) hpos
        omega
      | cons a t => exact ⟨a, t, rfl⟩
    subst ht
    rw [hk, zipChunks_cons, ← hk]
    have hdl : ((a :: t).drop props.length).length = n * props.length := by
      rw [List.length_drop, h]
      have : (n + 1) * props.length = n * props.length + props.length := by ring
      omega
    cases j with
    | zero =>
      rw [List.getD_cons_zero, Nat.zero_mul, List.drop_zero]
    | succ j =>
      rw [List.getD_cons_succ, ih _ hdl j (by omega), List.drop_drop]
      ring_nf

/-- Looking the i-th property name up in a zip of distinct property names
with response values yields the i-th response value. -/
theorem lookup_zip {β : Type} :
    ∀ (props : List String) (chunk : List β), props.Nodup →
      ∀ i, i < props.length → i < chunk.length →
        (props.zip chunk).lookup (props.getD i "") = chunk.get? i := by
  intro props
  induction props with
  | nil =>
    intro chunk _ i hip
    exact absurd hip (by simp)
  | cons p ps ih =>
    intro chunk hnd i hip hic
    cases chunk with
    | nil => exact absurd hic (by simp)
    | cons c cs =>
      rw [List.nodup_cons] at hnd
      cases i with
      | zero =>
        rw [List.zip_cons_cons, List.getD_cons_zero, lookup_cons_fst, if_pos rfl]
        rfl
      | succ i =>
        have hmem : ps.getD i "" ∈ ps := by
          rw [List.getD_eq_getD_get? ps "" i,
            List.get?_eq_get (by simpa using hip)]
          exact List.get_mem ps i _
        have hne : ps.getD i "" ≠ p := fun hh => hnd.1 (hh ▸ hmem)
        rw [List.zip_cons_cons, List.getD_cons_succ, lookup_cons_fst, if_neg hne]
        exact ih cs hnd.2 i (by simpa using hip) (by simpa using hic)

/-- In a zip of distinct property names with response values, a pair whose
key is the i-th property name carries the i-th response value. -/
theorem snd_of_mem_zip_nodup {β : Type} :
    ∀ (props : List String) (chunk : List β) (pv : String × β),
      pv ∈ props.zip chunk → props.Nodup →
      ∀ i, i < props.length → pv.1 = props.getD i "" →
        chunk.get? i = some pv.2 := by
  intro props
  induction props with
  | nil =>
    intro chunk pv hpv
    simp only [List.zip_nil_left, List.not_mem_nil] at hpv
  | cons p ps ih =>
    intro chunk pv hpv hnd i hip hkey
    cases chunk with
    | nil =>
      simp only [List.zip_nil_right, List.not_mem_nil] at hpv
    | cons c cs =>
      rw [List.nodup_cons] at hnd
      rw [List.zip_cons_cons, List.mem_cons] at hpv
      cases i with
      | zero =>
        rw [List.getD_cons_zero] at hkey
        cases hpv with
        | inl hh =>
          rw [hh]
          rfl
        | inr hh =>
          exfalso
          have h1 : pv.1 ∈ ps := (List.of_mem_zip hh).1
          rw [hkey] at h1
          exact hnd.1 h1
      | succ i =>
        rw [List.getD_cons_succ] at hkey
        have hips : i < ps.length := by simpa using hip
        have hmem : ps.getD i "" ∈ ps := by
          rw [List.getD_eq_getD_get? ps "" i, List.get?_eq_get hips]
          exact List.get_mem ps i _
        cases hpv with
        | inl hh =>
          exfalso
          apply hnd.1
          have hp : p = ps.getD i "" := by
            have h2 := hkey
            rw [hh] at h2
            simpa using h2
          rw [hp]
          exact hmem
        | inr hh =>
          exact ih cs pv hh hnd.2 i hips hkey

/-- A required-fetch object carries the i-th response value under the i-th
property name. -/
theorem lookup_buildObj_jsSetKey {α : Type} (props : List String)
    (chunk : List α) (hnd : props.Nodup) (i : Nat) (hi : i < props.length)
    (hlen : props.length ≤ chunk.length) :
    (buildObj props jsSetKey chunk).lookup (props.getD i "") = chunk.get? i := by
  have hkeys : (props.zip chunk).map Prod.fst = props :=
    List.map_fst_zip props chunk hlen
  have hlook : (props.zip chunk).lookup (props.getD i "") = chunk.get? i :=
    lookup_zip props chunk hnd i hi (by omega)
  obtain ⟨v, hv⟩ : ∃ v, chunk.get? i = some v :=
    ⟨chunk.get ⟨i, by omega⟩, List.get?_eq_get (by omega)⟩
  rw [hv]
  exact lookup_foldl_jsSetKey_of_some _ [] _ v (by rw [hkeys]; exact hnd)
    (by rw [hlook, hv])

/-- A property under no key of a required-fetch object is absent from it. -/
theorem lookup_buildObj_jsSetKey_not_mem {α : Type} (props : List String)
    (chunk : List α) (p : String) (hp : p ∉ props) :
    (buildObj props jsSetKey chunk).lookup p = none := by
  rw [buildObj, lookup_foldl_jsSetKey_of_none]
  · rfl
  · refine lookup_eq_none_of_keys_ne _ _ (fun pv hpv h1 => hp ?_)
    have := (List.of_mem_zip hpv).1
    rwa [h1] at this

/-- Conditional optional assignment never touches a key whose every source
pair lacks an effective entry. -/
theorem lookup_foldl_writeOptional_untouched {α : Type}
    (pairs : List (String × OptionalItem α)) (obj : JsObj α) (x : String)
    (h : ∀ pv ∈ pairs, pv.1 = x → optEntry pv = none) :
    (pairs.foldl (fun d pv => writeOptional d pv.1 pv.2) obj).lookup x =
      obj.lookup x := by
  induction pairs generalizing obj with
  | nil => rfl
  | cons a t ih =>
    rw [List.foldl_cons, ih _ (fun pv hpv => h pv (List.mem_cons_of_mem a hpv))]
    rcases ha2 : a.2 with _ | o
    · simp only [writeOptional, ha2]
    · rcases ho : o.lookup a.1 with _ | w
      · simp only [writeOptional, ha2, ho]
      · simp only [writeOptional, ha2, ho]
        rw [lookup_jsSetKey]
        by_cases hxa : x = a.1
        · exfalso
          have hopt := h a (List.mem_cons_self a t) hxa.symm
          simp only [optEntry, ha2, ho] at hopt
          exact Option.noConfusion hopt
        · rw [if_neg hxa]

/-- A property under no key of an optional-fetch object is absent from it. -/
theorem lookup_buildObj_writeOptional_not_mem {α : Type} (props : List String)
    (chunk : List (OptionalItem α)) (p : String) (hp : p ∉ props) :
    (buildObj props writeOptional chunk).lookup p = none := by
  rw [buildObj, lookup_foldl_writeOptional_untouched]
  · rfl
  · intro pv hpv h1
    exfalso
    have := (List.of_mem_zip hpv).1
    rw [h1] at this
    exact hp this

/-- An optional property omitted by the per-item host response is absent
from the object the tolerant zip builds for that item. -/
theorem lookup_buildObj_writeOptional_none {α : Type} (props : List String)
    (chunk : List (OptionalItem α)) (hnd : props.Nodup) (i : Nat)
    (hi : i < props.length) (hlen : props.length ≤ chunk.length)
    (homit : optEntry (props.getD i "", chunk.getD i none) = none) :
    (buildObj props writeOptional chunk).lookup (props.getD i "") = none := by
  rw [buildObj, lookup_foldl_writeOptional_untouched]
  · rfl
  · intro pv hpv hkey
    have h2 := snd_of_mem_zip_nodup props chunk pv hpv hnd i hi hkey
    have hgd : chunk.getD i none = pv.2 := by
      rw [List.getD_eq_getD_get? chunk none i, h2]
      rfl
    rw [optEntry]
    rw [hgd] at homit
    rw [optEntry] at homit
    simp only at homit ⊢
    rw [hkey]
    exact homit

/-- Access into a map over an enumeration. -/
theorem getD_enum_map {γ δ : Type} (l : List γ) (f : Nat × γ → δ) (j : Nat)
    (hj : j < l.length) (d : δ) (dg : γ) :
    (l.enum.map f).getD j d = f (j, l.getD j dg) := by
  rw [List.getD_eq_getD_get? _ d j, List.get?_map, List.get?_enum,
    List.get?_eq_get hj, List.getD_eq_getD_get? _ dg j, List.get?_eq_get hj]
  rfl

/-- C5: for every batched fetch over n references (a required response of
n * 10 values and a tolerant optional response of n * 14 per-item results),
`_getLayersByRef` yields exactly n descriptor objects in input order; the
j-th object carries, under every required property name, the host value at
flat position j * 10 + i of the required response, and it lacks every
optional property name whose per-item response was failed or did not carry
the property (no null default).  `optEntry _ = none` states exactly that the
item omits the property. -/
theorem C5_getLayersByRef_shape {α : Type} (n : Nat) (requiredResp : List α)
    (optionalResp : List (OptionalItem α))
    (hr : requiredResp.length = n * _layerProperties.length)
    (ho : optionalResp.length = n * _optionalLayerProperties.length) :
    (_getLayersByRef requiredResp optionalResp).length = n ∧
    (∀ j, j < n → ∀ i, i < _layerProperties.length →
      ((_getLayersByRef requiredResp optionalResp).getD j []).lookup
          (_layerProperties.getD i "") =
        requiredResp.get? (j * _layerProperties.length + i)) ∧
    (∀ j, j < n → ∀ i, i < _optionalLayerProperties.length →
      optEntry (_optionalLayerProperties.getD i "",
        optionalResp.getD (j * _optionalLayerProperties.length + i) none) = none →
      ((_getLayersByRef requiredResp optionalResp).getD j []).lookup
          (_optionalLayerProperties.getD i "") = none) := by
  have hposR : 0 < _layerProperties.length := by decide
  have hposO : 0 < _optionalLayerProperties.length := by decide
  have hndR : _layerProperties.Nodup := by decide
  have hndO : _optionalLayerProperties.Nodup := by decide
  have hA : zipProps _layerProperties jsSetKey requiredResp =
      zipChunks _layerProperties.length _layerProperties jsSetKey requiredResp :=
    zipProps_eq_zipChunks _ _ hposR n _ hr
  have hB : zipProps _optionalLayerProperties writeOptional optionalResp =
      zipChunks _optionalLayerProperties.length _optionalLayerProperties
        writeOptional optionalResp :=
    zipProps_eq_zipChunks _ _ hposO n _ ho
  have hAlen : (zipProps _layerProperties jsSetKey requiredResp).length = n := by
    rw [hA]
    exact zipChunks_length _ _ hposR n _ hr
  have hBlen :
      (zipProps _optionalLayerProperties writeOptional optionalResp).length = n := by
    rw [hB]
    exact zipChunks_length _ _ hposO n _ ho
  have hres : ∀ j, j < n → (_getLayersByRef requiredResp optionalResp).getD j [] =
      jsAssign
        ((zipProps _layerProperties jsSetKey requiredResp).getD j [])
        ((zipProps _optionalLayerProperties writeOptional optionalResp).getD j []) := by
    intro j hj
    rw [_getLayersByRef, getD_enum_map _ _ j (by omega) [] []]
  have hchunkR : ∀ j, j < n →
      (zipProps _layerProperties jsSetKey requiredResp).getD j [] =
        buildObj _layerProperties jsSetKey
          ((requiredResp.drop (j * _layerProperties.length)).take
            _layerProperties.length) := by
    intro j hj
    rw [hA]
    exact zipChunks_getD _ _ hposR n _ hr j hj
  have hchunkO : ∀ j, j < n →
      (zipProps _optionalLayerProperties writeOptional optionalResp).getD j [] =
        buildObj _optionalLayerProperties writeOptional
          ((optionalResp.drop (j * _optionalLayerProperties.length)).take
            _optionalLayerProperties.length) := by
    intro j hj
    rw [hB]
    exact zipChunks_getD _ _ hposO n _ ho j hj
  have hdisjR : ∀ p, p ∈ _layerProperties → p ∉ _optionalLayerProperties := by
    decide
  have hdisjO : ∀ p, p ∈ _optionalLayerProperties → p ∉ _layerProperties := by
    decide
  refine ⟨?_, ?_, ?_⟩
  · rw [_getLayersByRef]
    simp only [List.length_map, List.enum_length]
    exact hAlen
  · intro j hj i hi
    have hRmem : _layerProperties.getD i "" ∈ _layerProperties := by
      rw [List.getD_eq_getD_get? _ "" i, List.get?_eq_get hi]
      exact List.get_mem _ i _
    have hchunkRlen : _layerProperties.length ≤
        ((requiredResp.drop (j * _layerProperties.length)).take
          _layerProperties.length).length := by
      rw [List.length_take, List.length_drop, hr]
      have h1 : (j + 1) * _layerProperties.length ≤ n * _layerProperties.length :=
        Nat.mul_le_mul_right _ (by omega)
      have h2 : (j + 1) * _layerProperties.length =
          j * _layerProperties.length + _layerProperties.length := by ring
      omega
    rw [hres j hj, hchunkR j hj, hchunkO j hj]
    have hOabsent :
        (buildObj _optionalLayerProperties writeOptional
          ((optionalResp.drop (j * _optionalLayerProperties.length)).take
            _optionalLayerProperties.length)).lookup
          (_layerProperties.getD i "") = none :=
      lookup_buildObj_writeOptional_not_mem _ _ _
        (hdisjR _ hRmem)
    rw [jsAssign, lookup_foldl_jsSetKey_of_none _ _ _ hOabsent,
      lookup_buildObj_jsSetKey _ _ hndR i hi hchunkRlen,
      List.get?_take hi, List.get?_drop]
  · intro j hj i hi homit
    have hOmem : _optionalLayerProperties.getD i "" ∈ _optionalLayerProperties := by
      rw [List.getD_eq_getD_get? _ "" i, List.get?_eq_get hi]
      exact List.get_mem _ i _
    have hchunkOlen : _optionalLayerProperties.length ≤
        ((optionalResp.drop (j * _optionalLayerProperties.length)).take
          _optionalLayerProperties.length).length := by
      rw [List.length_take, List.length_drop, ho]
      have h1 : (j + 1) * _optionalLayerProperties.length ≤
          n * _optionalLayerProperties.length :=
        Nat.mul_le_mul_right _ (by omega)
      have h2 : (j + 1) * _optionalLayerProperties.length =
          j * _optionalLayerProperties.length + _optionalLayerProperties.length := by
        ring
      omega
    have hidx : j * _optionalLayerProperties.length + i < optionalResp.length := by
      rw [ho]
      have h1 : (j + 1) * _optionalLayerProperties.length ≤
          n * _optionalLayerProperties.length :=
        Nat.mul_le_mul_right _ (by omega)
      have h2 : (j + 1) * _optionalLayerProperties.length =
          j * _optionalLayerProperties.length + _optionalLayerProperties.length := by
        ring
      omega
    have hchunkAt :
        ((optionalResp.drop (j * _optionalLayerProperties.length)).take
          _optionalLayerProperties.length).getD i none =
          optionalResp.getD (j * _optionalLayerProperties.length + i) none := by
      rw [List.getD_eq_getD_get? _ none i, List.get?_take hi, List.get?_drop,
        List.getD_eq_getD_get? _ none _]
    have hOabsent :
        (buildObj _optionalLayerProperties writeOptional
          ((optionalResp.drop (j * _optionalLayerProperties.length)).take
            _optionalLayerProperties.length)).lookup
          (_optionalLayerProperties.getD i "") = none := by
      refine lookup_buildObj_writeOptional_none _ _ hndO i hi hchunkOlen ?_
      rw [hchunkAt]
      exact homit
    have hRabsent :
        (buildObj _layerProperties jsSetKey
          ((requiredResp.drop (j * _layerProperties.length)).take
            _layerProperties.length)).lookup
          (_optionalLayerProperties.getD i "") = none :=
      lookup_buildObj_jsSetKey_not_mem _ _ _ (hdisjO _ hOmem)
    rw [hres j hj, hchunkR j hj, hchunkO j hj, jsAssign,
      lookup_foldl_jsSetKey_of_none _ _ _ hOabsent, hRabsent]

/-- Witness for C5 at one reference: a required response of ten values and
an optional response whose fourteen per-item results all fail, giving one
descriptor with every required key and no optional key. -/
theorem C5_witness :
    (_getLayersByRef [1, 2, 3, 4, 5, 6, 7, 8, 9, 10]
        (List.replicate 14 (none : OptionalItem Nat))).length = 1 ∧
    (∀ j, j < 1 → ∀ i, i < _layerProperties.length →
      ((_getLayersByRef [1, 2, 3, 4, 5, 6, 7, 8, 9, 10]
          (List.replicate 14 (none : OptionalItem Nat))).getD j []).lookup
          (_layerProperties.getD i "") =
        [1, 2, 3, 4, 5, 6, 7, 8, 9, 10].get? (j * _layerProperties.length + i)) ∧
    (∀ j, j < 1 → ∀ i, i < _optionalLayerProperties.length →
      optEntry (_optionalLayerProperties.getD i "",
        (List.replicate 14 (none : OptionalItem Nat)).getD
          (j * _optionalLayerProperties.length + i) none) = none →
      ((_getLayersByRef [1, 2, 3, 4, 5, 6, 7, 8, 9, 10]
          (List.replicate 14 (none : OptionalItem Nat))).getD j []).lookup
          (_optionalLayerProperties.getD i "") = none) :=
  C5_getLayersByRef_shape 1 [1, 2, 3, 4, 5, 6, 7, 8, 9, 10]
    (List.replicate 14 (none : OptionalItem Nat)) (by decide) (by decide)

/-! ## C9: fromDescriptor fails only with local validation errors -/

/-- Every error of the shortcut block is a listed validation error. -/
theorem processShortcut_error_class (env : MenuEnv) (sc : RawShortcut)
    (t : ShortcutTable) (e : String) (h : processShortcut env sc t = .error e) :
    validationError e := by
  rw [processShortcut] at h
  dsimp only at h
  by_cases h1 : (jsTruthyStr sc.keyChar && jsTruthyStr sc.keyCode) = true
  · rw [if_pos h1] at h
    injection h with h1'
    exact Or.inr (Or.inl h1'.symm)
  · rw [if_neg h1] at h
    by_cases h2 : jsTruthyStr sc.keyChar = true
    · rw [if_pos h2] at h
      by_cases h3 : tableHas t
          ("char-" ++ match sc.keyChar with | some c => c | none => "")
          (env.modifiersToBits (match sc.modifiers with
            | some m => m
            | none => [])) = true
      · rw [if_pos h3] at h
        injection h with h1'
        exact Or.inr (Or.inr (Or.inr (Or.inr ⟨_, h1'.symm⟩)))
      · rw [if_neg h3] at h
        exact absurd h (by simp)
    · rw [if_neg h2] at h
      by_cases h4 : jsTruthyStr sc.keyCode = true
      · rw [if_pos h4] at h
        cases hek : env.eventKeyCode
            (match sc.keyCode with | some c => c | none => "") with
        | none =>
          rw [hek] at h
          dsimp only at h
          injection h with h1'
          exact Or.inr (Or.inr (Or.inr (Or.inl ⟨_, h1'.symm⟩)))
        | some kc =>
          rw [hek] at h
          dsimp only at h
          by_cases h5 : tableHas t
              ("code-" ++ match sc.keyCode with | some c => c | none => "")
              (env.modifiersToBits (match sc.modifiers with
                | some m => m
                | none => [])) = true
          · rw [if_pos h5] at h
            injection h with h1'
            exact Or.inr (Or.inr (Or.inr (Or.inr ⟨_, h1'.symm⟩)))
          · rw [if_neg h5] at h
            exact absurd h (by simp)
      · rw [if_neg h4] at h
        injection h with h1'
        exact Or.inr (Or.inr (Or.inl h1'.symm))

/-- Every error of the shared item-building tail is a listed validation
error. -/
theorem finishItem_error_class (env : MenuEnv) (rawId id : String)
    (enabledV : Bool) (ck0 : Option String) (sc0 : Option RawShortcut)
    (labelV : String) (submenuV : Option (List MenuItemRec))
    (commandV : Option String) (t1 : ShortcutTable) (e : String)
    (h : finishItem env rawId id enabledV ck0 sc0 labelV submenuV commandV t1 =
      .error e) :
    validationError e := by
  rw [finishItem.eq_def] at h
  dsimp only at h
  cases sc0 with
  | none => exact absurd h (by simp)
  | some scv =>
    dsimp only at h
    cases hps : processShortcut env scv t1 with
    | error e2 =>
      rw [hps] at h
      dsimp only at h
      injection h with h1
      rw [← h1]
      exact processShortcut_error_class env scv t1 e2 hps
    | ok pr =>
      rw [hps] at h
      obtain ⟨srec, t2⟩ := pr
      dsimp only at h
      exact absurd h (by simp)

/-- Every error of descriptor processing, at any nesting depth, is one of
the listed validation errors, provided the localization table has a `$MENU`
label for every submenu id (localization is an external collaborator). -/
theorem fromDescriptor_error_validation :
    ∀ (N : Nat),
      (∀ (env : MenuEnv) (raw : RawMenu) (pfx : Option String)
        (t : ShortcutTable) (e : String), sizeOf raw ≤ N →
        (∀ s, (env.submenuMENU s).isSome = true) →
        MenuItem.fromDescriptor env raw pfx t = .error e → validationError e) ∧
      (∀ (env : MenuEnv) (l : List RawMenu) (pfx : String) (t : ShortcutTable)
        (e : String), sizeOf l ≤ N →
        (∀ s, (env.submenuMENU s).isSome = true) →
        MenuItem.fromDescriptorList env l pfx t = .error e →
        validationError e) := by
  intro N
  induction N using Nat.strong_induction_on with
  | _ N ih =>
    constructor
    · intro env raw pfx t e hsz henv h
      rcases raw with ⟨sep, id0, en, sub, ck, sc, dbg⟩
      rw [MenuItem.fromDescriptor.eq_def] at h
      dsimp only at h
      by_cases hsep : sep = true
      · rw [if_pos hsep] at h
        exact absurd h (by simp)
      · rw [if_neg hsep] at h
        cases id0 with
        | none =>
          injection h with h1
          exact Or.inl h1.symm
        | some rawId =>
          dsimp only at h
          cases sub with
          | none =>
            dsimp only at h
            exact finishItem_error_class env rawId _ _ ck sc _ _ _ t e h
          | some rawSub =>
            dsimp only at h
            cases hsm : env.submenuMENU (menuFullId pfx rawId) with
            | none =>
              have hc := henv (menuFullId pfx rawId)
              rw [hsm] at hc
              exact absurd hc (by simp)
            | some lab =>
              rw [hsm] at h
              dsimp only at h
              have hsz2 := hsz
              simp only [RawMenu.mk.sizeOf_spec, Option.some.sizeOf_spec] at hsz2
              cases hrec : MenuItem.fromDescriptorList env rawSub
                  (menuFullId pfx rawId) t with
              | error e2 =>
                rw [hrec] at h
                dsimp only at h
                injection h with h1
                rw [← h1]
                exact (ih (sizeOf rawSub) (by omega)).2 env rawSub
                  (menuFullId pfx rawId) t e2 (le_refl _) henv hrec
              | ok pr =>
                rw [hrec] at h
                obtain ⟨items, t1⟩ := pr
                dsimp only at h
                exact finishItem_error_class env rawId _ _ ck sc _ _ _ t1 e h
    · intro env l pfx t e hsz henv h
      cases l with
      | nil =>
        rw [MenuItem.fromDescriptorList] at h
        exact absurd h (by simp)
      | cons m rest =>
        rw [MenuItem.fromDescriptorList] at h
        have hsz2 := hsz
        simp only [List.cons.sizeOf_spec] at hsz2
        by_cases hdbg : (m.debugFlag && !env.debugMode) = true
        · rw [if_pos hdbg] at h
          exact (ih (sizeOf rest) (by omega)).2 env rest pfx t e
            (le_refl _) henv h
        · rw [if_neg hdbg] at h
          cases hfd : MenuItem.fromDescriptor env m (some pfx) t with
          | error e2 =>
            rw [hfd] at h
            dsimp only at h
            injection h with h1
            rw [← h1]
            exact (ih (sizeOf m) (by omega)).1 env m (some pfx) t e2
              (le_refl _) henv hfd
          | ok pr =>
            rw [hfd] at h
            obtain ⟨item, t1⟩ := pr
            dsimp only at h
            cases hrec : MenuItem.fromDescriptorList env rest pfx t1 with
            | error e2 =>
              rw [hrec] at h
              dsimp only at h
              injection h with h1
              rw [← h1]
              exact (ih (sizeOf rest) (by omega)).2 env rest pfx t1 e2
                (le_refl _) henv hrec
            | ok pr2 =>
              rw [hrec] at h
              obtain ⟨items, t2⟩ := pr2
              dsimp only at h
              exact absurd h (by simp)

/-- C9: `MenuItem.fromDescriptor` fails synchronously exactly with the local
validation errors — every failure carries one of the five validation
messages (missing id, both key char and code, no shortcut key, unknown key
code, duplicate shortcut), and on any other input it returns a MenuItem
record with the updated shortcut table — and each listed condition does
trigger its error: a non-separator descriptor without an id, and a leaf
descriptor whose shortcut specifies both keys, an unknown key code, no key
at all, or an already-claimed key-plus-modifiers combination.  The
localization table is an external collaborator, assumed to carry a `$MENU`
label for every submenu id. -/
theorem C9_fromDescriptor_validation :
    (∀ (env : MenuEnv) (raw : RawMenu) (pfx : Option String)
      (t : ShortcutTable) (e : String),
      (∀ s, (env.submenuMENU s).isSome = true) →
      MenuItem.fromDescriptor env raw pfx t = .error e → validationError e) ∧
    (∀ (env : MenuEnv) (raw : RawMenu) (pfx : Option String) (t : ShortcutTable),
      (∀ e, MenuItem.fromDescriptor env raw pfx t ≠ .error e) →
      ∃ item t1, MenuItem.fromDescriptor env raw pfx t = .ok (item, t1)) ∧
    (∀ (env : MenuEnv) (pfx : Option String) (t : ShortcutTable) en sub ck sc dbg,
      MenuItem.fromDescriptor env (.mk false none en sub ck sc dbg) pfx t =
        .error "Missing menu id") ∧
    (∀ (env : MenuEnv) (pfx : Option String) (t : ShortcutTable) (rawId : String)
      en ck dbg (c k : String) (mods : Option (List String)),
      c ≠ "" → k ≠ "" →
      MenuItem.fromDescriptor env
        (.mk false (some rawId) en none ck
          (some { keyChar := some c, keyCode := some k, modifiers := mods })
          dbg) pfx t =
        .error "Menu entry specifies both key char and code") ∧
    (∀ (env : MenuEnv) (pfx : Option String) (t : ShortcutTable) (rawId : String)
      en ck dbg (k : String) (mods : Option (List String)),
      k ≠ "" → env.eventKeyCode k = none →
      MenuItem.fromDescriptor env
        (.mk false (some rawId) en none ck
          (some { keyChar := none, keyCode := some k, modifiers := mods })
          dbg) pfx t =
        .error ("Menu entry specifies unknown key code: " ++ k)) ∧
    (∀ (env : MenuEnv) (pfx : Option String) (t : ShortcutTable) (rawId : String)
      en ck dbg (mods : Option (List String)),
      MenuItem.fromDescriptor env
        (.mk false (some rawId) en none ck
          (some { keyChar := none, keyCode := none, modifiers := mods })
          dbg) pfx t =
        .error "Menu entry does not specify a key for its shortcut") ∧
    (∀ (env : MenuEnv) (pfx : Option String) (t : ShortcutTable) (rawId : String)
      en ck dbg (c : String) (mods : Option (List String)),
      c ≠ "" →
      tableHas t ("char-" ++ c)
        (env.modifiersToBits (match mods with
          | some m => m
          | none => [])) = true →
      MenuItem.fromDescriptor env
        (.mk false (some rawId) en none ck
          (some { keyChar := some c, keyCode := none, modifiers := mods })
          dbg) pfx t =
        .error ("Menu entry shortcut duplicate: " ++ ("char-" ++ c))) := by
  refine ⟨?_, ?_, ?_, ?_, ?_, ?_, ?_⟩
  · intro env raw pfx t e henv h
    exact (fromDescriptor_error_validation (sizeOf raw)).1 env raw pfx t e
      (le_refl _) henv h
  · intro env raw pfx t hne
    cases hres : MenuItem.fromDescriptor env raw pfx t with
    | error e => exact absurd hres (hne e)
    | ok pr =>
      obtain ⟨item, t1⟩ := pr
      exact ⟨item, t1, rfl⟩
  · intro env pfx t en sub ck sc dbg
    rw [MenuItem.fromDescriptor.eq_def]
    simp
  · intro env pfx t rawId en ck dbg c k mods hc hk
    rw [MenuItem.fromDescriptor.eq_def]
    dsimp only
    rw [finishItem.eq_def]
    dsimp only
    rw [processShortcut]
    simp [jsTruthyStr, hc, hk]
  · intro env pfx t rawId en ck dbg k mods hk hek
    rw [MenuItem.fromDescriptor.eq_def]
    dsimp only
    rw [finishItem.eq_def]
    dsimp only
    rw [processShortcut]
    simp [jsTruthyStr, hk, hek]
  · intro env pfx t rawId en ck dbg mods
    rw [MenuItem.fromDescriptor.eq_def]
    dsimp only
    rw [finishItem.eq_def]
    dsimp only
    rw [processShortcut]
    simp [jsTruthyStr]
  · intro env pfx t rawId en ck dbg c mods hc htab
    rw [MenuItem.fromDescriptor.eq_def]
    dsimp only
    rw [finishItem.eq_def]
    dsimp only
    rw [processShortcut]
    simp [jsTruthyStr, hc, htab]

/-- Witness for C9: concrete descriptors triggering the validation errors
(missing id, both keys, unknown code, duplicate shortcut), each classified
as a validation error, under a concrete well-formed environment. -/
theorem C9_witness :
    validationError "Missing menu id" ∧
    MenuItem.fromDescriptor sampleMenuEnv
        (.mk false none none none none none false) none [] =
      .error "Missing menu id" ∧
    MenuItem.fromDescriptor sampleMenuEnv
        (.mk false (some "open") none none none
          (some { keyChar := some "o", keyCode := some "WIN_LEFT",
                  modifiers := none }) false) none [] =
      .error "Menu entry specifies both key char and code" ∧
    MenuItem.fromDescriptor sampleMenuEnv
        (.mk false (some "open") none none none
          (some { keyChar := none, keyCode := some "F99", modifiers := none })
          false) none [] =
      .error ("Menu entry specifies unknown key code: " ++ "F99") ∧
    MenuItem.fromDescriptor sampleMenuEnv
        (.mk false (some "open") none none none
          (some { keyChar := some "o", keyCode := none, modifiers := none })
          false) none [("char-o", [0])] =
      .error ("Menu entry shortcut duplicate: " ++ ("char-" ++ "o")) :=
  ⟨C9_fromDescriptor_validation.1 sampleMenuEnv
     (.mk false none none none none none false) none [] "Missing menu id"
     (fun _ => rfl)
     (C9_fromDescriptor_validation.2.2.1 sampleMenuEnv none [] none none none
       none false),
   C9_fromDescriptor_validation.2.2.1 sampleMenuEnv none [] none none none
     none false,
   C9_fromDescriptor_validation.2.2.2.1 sampleMenuEnv none [] "open" none none
     false "o" "WIN_LEFT" none (by decide) (by decide),
   C9_fromDescriptor_validation.2.2.2.2.1 sampleMenuEnv none [] "open" none
     none false "F99" none (by decide) (by decide),
   C9_fromDescriptor_validation.2.2.2.2.2.2 sampleMenuEnv none
     [("char-o", [0])] "open" none none false "o" none (by decide) (by decide)⟩
